import Mathlib

/-!
Verification development for the `SiteDownloader` mirroring engine
(`src/unnamed/part_000`, third evolution of the engine, lines 822-1741,
plus `getFilenameFromUrl` from `src/bypass403.js`).

Strings are embedded as `List Char` (`Str`), so that every operation of the
source can be translated structurally and reasoned about by list induction.
External collaborators (the WHATWG URL parser, Node's `path` module,
`decodeURIComponent`) are modelled explicitly; each model carries a doc
comment stating the domain on which it is faithful.  State-carrying
operations (`downloadAsset`, `downloadFontAsset`, `processAsset`) are
embedded as functions on an explicit `CrawlState`, with the network and the
filesystem supplied by an `Oracle`; effect traces (`fetchLog`, `writeLog`,
`skipLog`) record the requests issued, the files written and the size-skips
logged.  JavaScript `while` loops whose termination depends on data are
embedded with explicit fuel; exhausted fuel (`GenRes.diverged`, or an outer
`none`) models non-termination of the source loop.
-/

namespace Crawler

/-- Strings of the embedded program, as lists of characters. -/
abbrev Str := List Char

/-- Conversion from Lean string literals to embedded strings. -/
def str (s : String) : Str := s.data

/-- `hasPfx p s` : does `s` start with `p`? (JS `String.prototype.startsWith`). -/
def hasPfx : Str → Str → Bool
  | [], _ => true
  | _ :: _, [] => false
  | p :: ps, c :: cs => p = c && hasPfx ps cs

/-- `hasSfx p s` : does `s` end with `p`? (JS `String.prototype.endsWith`). -/
def hasSfx (p s : Str) : Bool := hasPfx p.reverse s.reverse

/-- `containsSub n s` : does `n` occur as a contiguous substring of `s`?
(JS `String.prototype.includes`). -/
def containsSub (needle : Str) : Str → Bool
  | [] => hasPfx needle []
  | c :: cs => hasPfx needle (c :: cs) || containsSub needle cs

/-- Everything after the last `'/'` of `p`; equals JS `p.split('/').pop()`
(an empty result when `p` ends in `'/'` or is empty). -/
def lastSeg (p : Str) : Str := (p.reverse.takeWhile (· ≠ '/')).reverse

/-- JS `s.split(c)[0]` : the part of `s` before the first occurrence of `c`. -/
def jsSplitFirst (c : Char) (s : Str) : Str := s.takeWhile (· ≠ c)

/-- Remove the first occurrence of character `c`
(JS `s.replace(c, '')` with a one-character non-global pattern). -/
def removeFirstChar (c : Char) : Str → Str
  | [] => []
  | x :: xs => if x = c then xs else x :: removeFirstChar c xs

/-- Lower-case every character (ASCII; JS `toLowerCase` on the inputs used). -/
def toLowerStr (s : Str) : Str := s.map Char.toLower

/-- Decimal representation of a natural number (JS number-to-string in
template literals, for the non-negative integers the source uses). -/
def natStr (n : Nat) : Str := (Nat.repr n).data

/-- Index of the last occurrence of `c` in `l`, if any. -/
def lastIdxOf (c : Char) (l : Str) : Option Nat :=
  match l.reverse.findIdx? (· = c) with
  | none => none
  | some j => some (l.length - 1 - j)

/-- Drop all trailing `'/'` characters. -/
def dropTrailSlashes (p : Str) : Str := (p.reverse.dropWhile (· = '/')).reverse

/-- Model of Node `path.basename(p)` (no extension argument): the last
segment after stripping trailing slashes. -/
def jsBasename (p : Str) : Str := lastSeg (dropTrailSlashes p)

/-- Model of Node `path.extname(p)`: the suffix of the basename from its last
dot, or empty when the basename has no dot, starts with its only dot, or is
exactly `".."`. -/
def jsExtname (p : Str) : Str :=
  let b := jsBasename p
  if b = str ".." then []
  else
    match lastIdxOf '.' b with
    | none => []
    | some 0 => []
    | some i => b.drop i

/-- Model of Node `path.basename(p, ext)`: the basename, with the suffix
`ext` removed when it is a proper suffix. -/
def jsBasenameExt (p ext : Str) : Str :=
  let b := jsBasename p
  if hasSfx ext b ∧ ext.length < b.length then b.take (b.length - ext.length) else b

/-- Characters kept by the sanitizer's class `[a-zA-Z0-9.\-_]`. -/
def keepChar (c : Char) : Bool :=
  c.isAlpha || c.isDigit || c = '.' || c = '-' || c = '_'

/-- The source's sanitizer `name.replace(/[^a-zA-Z0-9.\-_]/g, '_')`. -/
def sanitizeName (s : Str) : Str := s.map fun c => if keepChar c then c else '_'

/-- Replace the first occurrence of substring `pat` in `s` by `repl`
(JS `String.prototype.replace` with a string pattern); `s` unchanged when
`pat` does not occur.  An empty `pat` matches at the front, as in JS. -/
def jsReplaceFirst (s pat repl : Str) : Str :=
  match s with
  | [] => if hasPfx pat [] then repl else []
  | c :: cs =>
    if hasPfx pat (c :: cs) then repl ++ (c :: cs).drop pat.length
    else c :: jsReplaceFirst cs pat repl

/-- Collapse every run of consecutive `'/'` into a single `'/'`. -/
def collapseSlashes : Str → Str
  | [] => []
  | [c] => [c]
  | a :: b :: rest =>
    if a = '/' ∧ b = '/' then collapseSlashes (b :: rest)
    else a :: collapseSlashes (b :: rest)

/-- Drop a leading `"./"`. -/
def dropDotSlash (p : Str) : Str := if hasPfx (str "./") p then p.drop 2 else p

/-- Model of Node `path.join(a, b)` on the inputs the source produces:
joins with `'/'`, collapses duplicate separators and drops a leading `"./"`
(no `".."` segments occur in the joined inputs). -/
def pathJoin (a b : Str) : Str :=
  collapseSlashes (dropDotSlash a ++ '/' :: dropDotSlash b)

/-! ### Modelled collaborator: the WHATWG URL parser

The source uses `new URL(u)` (throws a `TypeError "Invalid URL"` on
unparseable input) and reads `.pathname`, and `new URL(u, base).href` for
resolution.  The model below is faithful on the inputs the theorems use:
canonical absolute `http`/`https` URLs (lower-case host, no default-port or
percent-encoding normalisation pending), fragment-only references against a
fragmentless base, and root-relative references.  Inputs outside this domain
are mapped to `none`, the image of a thrown `TypeError`. -/

/-- Parsed URL: scheme, host (authority) and pathname (always starting with
`'/'`, free of query and fragment), as the source reads them. -/
structure UrlObj where
  scheme : Str
  host : Str
  pathname : Str
  deriving Repr, DecidableEq

/-- Parse host and pathname once the scheme and `"://"` have been removed. -/
def parseAfterScheme (scheme rest : Str) : Option UrlObj :=
  let host := rest.takeWhile fun c => c ≠ '/' && c ≠ '?' && c ≠ '#'
  if host = [] then none
  else
    let after := rest.drop host.length
    let pn :=
      if hasPfx (str "/") after then after.takeWhile fun c => c ≠ '?' && c ≠ '#'
      else ['/']
    some ⟨scheme, host, pn⟩

/-- Modelled collaborator: `new URL(u)` restricted to absolute
`http`/`https` URLs; `none` models the thrown `TypeError`. -/
def parseUrl (u : Str) : Option UrlObj :=
  if hasPfx (str "https://") u then parseAfterScheme (str "https") (u.drop 8)
  else if hasPfx (str "http://") u then parseAfterScheme (str "http") (u.drop 7)
  else none

/-- Modelled collaborator: `new URL(u, base).href` on the reference shapes
the theorems exercise: an absolute `http(s)` `u` is returned unchanged
(inputs are canonical), a `'#'`-reference is appended to a fragmentless
`base`, and a root-relative `u` is attached to `base`'s origin.  Every other
shape is outside the model's domain and mapped to `none` (thrown). -/
def resolveUrl (u base : Str) : Option Str :=
  if hasPfx (str "http://") u || hasPfx (str "https://") u then some u
  else
    match parseUrl base with
    | none => none
    | some b =>
      if hasPfx (str "#") u then some (base ++ u)
      else
        match u with
        | '/' :: rest =>
          if hasPfx (str "/") rest then none
          else some (b.scheme ++ str "://" ++ b.host ++ u)
        | _ => none

/-- Message of the `TypeError` thrown by `new URL` on unparseable input. -/
def errInvalidUrl : Str := str "Invalid URL"

/-! ### Filename Resolver (`getFileExtension`, `getFontExtension`,
`isFontFile`, `generateFilename`, `generateFontFilename`,
`getFilenameFromUrl`, `getPageOutputPath`, `isLikelyHtmlPage`) -/

/-- Association lookup with default (JS `typeMap[contentType] || dflt`). -/
def lookupD (m : List (Str × Str)) (k dflt : Str) : Str :=
  match m.find? fun p => p.1 == k with
  | some p => if p.2 = [] then dflt else p.2
  | none => dflt

/-- The content-type → extension table of `getFileExtension`. -/
def extTypeMap : List (Str × Str) :=
  [(str "text/css", str "css"),
   (str "application/javascript", str "js"),
   (str "image/jpeg", str "jpg"),
   (str "image/png", str "png"),
   (str "image/gif", str "gif"),
   (str "image/svg+xml", str "svg"),
   (str "image/webp", str "webp"),
   (str "image/x-icon", str "ico")]

/-- The content-type → extension table of `getFontExtension`. -/
def fontTypeMap : List (Str × Str) :=
  [(str "font/woff", str "woff"),
   (str "font/woff2", str "woff2"),
   (str "font/ttf", str "ttf"),
   (str "font/otf", str "otf"),
   (str "application/font-woff", str "woff"),
   (str "application/font-woff2", str "woff2"),
   (str "application/x-font-ttf", str "ttf"),
   (str "application/x-font-otf", str "otf"),
   (str "application/vnd.ms-fontobject", str "eot")]

/-- The recognised font extensions `['woff', 'woff2', 'ttf', 'otf', 'eot']`. -/
def fontExts : List Str :=
  [str "woff", str "woff2", str "ttf", str "otf", str "eot"]

/-- The recognised dotted font extensions `['.woff', …]`. -/
def fontDotExts : List Str :=
  [str ".woff", str ".woff2", str ".ttf", str ".otf", str ".eot"]

/-- `getFileExtension(url, contentType)` (source lines 1617-1636): the
lower-cased URL-path extension when present, else the content-type table
with default `'bin'`, else `'bin'`.  `none` models the `TypeError` of
`new URL(url)` escaping the function (it is called inside callers' `try`
blocks).  The result, when defined, is never empty. -/
def getFileExtension (u ct : Str) : Option Str :=
  match parseUrl u with
  | none => none
  | some uo =>
    let urlExt := removeFirstChar '.' (toLowerStr (jsExtname uo.pathname))
    if urlExt ≠ [] then some urlExt
    else if ct ≠ [] then some (lookupD extTypeMap ct (str "bin"))
    else some (str "bin")

/-- `getFontExtension(url, contentType)` (source lines 1536-1564).  `none`
models the `TypeError` of `new URL(url)`. -/
def getFontExtension (u ct : Str) : Option Str :=
  match parseUrl u with
  | none => none
  | some uo =>
    let urlExt := removeFirstChar '.' (toLowerStr (jsExtname uo.pathname))
    if urlExt ≠ [] ∧ fontExts.contains urlExt then some urlExt
    else if ct ≠ [] then some (lookupD fontTypeMap ct (str "woff"))
    else if containsSub (str ".woff2") u then some (str "woff2")
    else if containsSub (str ".woff") u then some (str "woff")
    else if containsSub (str ".ttf") u then some (str "ttf")
    else if containsSub (str ".otf") u then some (str "otf")
    else if containsSub (str ".eot") u then some (str "eot")
    else some (str "woff")

/-- All prefixes of `l` that end immediately before some `'?'` of `l`. -/
def qCands : Str → List Str
  | [] => []
  | c :: cs =>
    (if c = '?' then [([] : Str)] else []) ++ (qCands cs).map fun t => c :: t

/-- `isFontFile(url)` (source lines 1532-1534): does
`/\.(woff|woff2|ttf|otf|eot)(\?.*)?$/i` match, i.e. does the URL, or some
prefix of it cut at a `'?'`, end in a dotted font extension
(case-insensitively)? -/
def isFontFile (u : Str) : Bool :=
  let lu := toLowerStr u
  (lu :: qCands lu).any fun p => fontExts.any fun e => hasSfx ('.' :: e) p

/-- `isLikelyHtmlPage(url, contentType)` (source lines 1517-1530); `none`
models the `TypeError` of `new URL(url)`. -/
def isLikelyHtmlPage (u ct : Str) : Option Bool :=
  if ct ≠ [] ∧ containsSub (str "text/html") ct then some true
  else
    match parseUrl u with
    | none => none
    | some uo =>
      some (jsExtname uo.pathname = [] ∧ ¬ hasSfx (str "/") uo.pathname)

/-- Result of the filename generators: a name, a thrown `TypeError`, or
divergence of the uniqueness `while` loop (fuel exhausted). -/
inductive GenRes where
  | thrown
  | diverged
  | name (s : Str)
  deriving Repr, DecidableEq

/-- JS `Map.get`, over the insertion-ordered association list. -/
def mapGet (m : List (Str × Str)) (k : Str) : Option Str :=
  (m.find? fun p => p.1 == k).map fun p => p.2

/-- JS `Map.set`: update in place when the key exists, else append. -/
def mapSet (m : List (Str × Str)) (k v : Str) : List (Str × Str) :=
  if (m.find? fun p => p.1 == k).isSome then
    m.map fun p => if p.1 == k then (k, v) else p
  else m ++ [(k, v)]

/-- The uniqueness `while` loop shared by `generateFilename` and
`generateFontFilename` (source lines 1604-1612 and 1578-1586):

`while (assetMap.has(url) && assetMap.get(url) !== finalName) {
   finalName = baseName-counter+ext; counter++ }`

`stored` is `assetMap.get(url)` (constant during the loop), `cur` the
current `finalName`; the caller enters the loop only when the map has the
url.  Fuel exhaustion models non-termination. -/
def uniqLoop (stored base ext : Str) : Nat → Nat → Str → GenRes
  | 0, _, _ => .diverged
  | fuel + 1, counter, cur =>
    if cur = stored then .name cur
    else uniqLoop stored base ext fuel (counter + 1) (base ++ '-' :: natStr counter ++ ext)

/-- The source's `extension = extension || this.getFileExtension(url)`
(line 1598): a missing or empty `extension` argument falls back to the
URL-derived extension. -/
def extOrLookup (url : Str) (extension : Option Str) : Option Str :=
  match extension with
  | some e => if e = [] then getFileExtension url [] else some e
  | none => getFileExtension url []

/-- Lines 1593-1600 of `generateFilename`: the pre-sanitization name — last
path segment (or the category `ty` when empty), query and fragment split
off, and, when the name has no extension, the `extOrLookup` extension
appended (with the dead `'.bin'` default of the source's ternary).  `none`
models the `TypeError` of the re-parse inside `getFileExtension`. -/
def baseNameWithExt (url ty : Str) (extension : Option Str) (pathname : Str) :
    Option Str :=
  let nm0 := lastSeg pathname
  let nm1 := if nm0 = [] then ty else nm0
  let nm2 := jsSplitFirst '#' (jsSplitFirst '?' nm1)
  if jsExtname nm2 = [] then
    match extOrLookup url extension with
    | none => none
    | some e => some (if e = [] then nm2 ++ str ".bin" else nm2 ++ '.' :: e)
  else some nm2

/-- `generateFilename(url, type, extension)` (source lines 1591-1615):
the `baseNameWithExt` name, sanitized, then the uniqueness loop keyed on
`assetMap.get(url)`. -/
def generateFilename (fuel : Nat) (am : List (Str × Str)) (url ty : Str)
    (extension : Option Str) : GenRes :=
  match parseUrl url with
  | .none => .thrown
  | .some uo =>
    match baseNameWithExt url ty extension uo.pathname with
    | none => .thrown
    | some nm4 =>
      let nmS := sanitizeName nm4
      match mapGet am url with
      | none => .name nmS
      | some stored =>
        uniqLoop stored (jsBasenameExt nmS (jsExtname nmS)) (jsExtname nmS) fuel 1 nmS

/-- `generateFontFilename(url, extension)` (source lines 1566-1589);
`now` models `Date.now()` in the empty-segment fallback. -/
def generateFontFilename (now fuel : Nat) (am : List (Str × Str))
    (url extension : Str) : GenRes :=
  match parseUrl url with
  | .none => .thrown
  | .some uo =>
    let nm0 := lastSeg uo.pathname
    let nm1 := if nm0 = [] then str "font-" ++ natStr now else nm0
    let nm2 := jsSplitFirst '#' (jsSplitFirst '?' nm1)
    let e2 := jsExtname nm2
    let nm3 :=
      if e2 = [] ∨ ¬ fontDotExts.contains (toLowerStr e2) then nm2 ++ '.' :: extension
      else nm2
    let nmS := sanitizeName nm3
    match mapGet am url with
    | none => .name nmS
    | some stored =>
      uniqLoop stored (jsBasenameExt nmS (jsExtname nmS)) (jsExtname nmS) fuel 1 nmS

/-- Hexadecimal digit value, as `decodeURIComponent` reads `%`-escapes. -/
def hexVal (c : Char) : Option Nat :=
  if '0' ≤ c ∧ c ≤ '9' then some (c.toNat - 48)
  else if 'a' ≤ c ∧ c ≤ 'f' then some (c.toNat - 87)
  else if 'A' ≤ c ∧ c ≤ 'F' then some (c.toNat - 70)
  else none

/-- Modelled collaborator: `decodeURIComponent` restricted to ASCII
`%`-escapes; malformed escapes (and multi-byte sequences, unused by the
theorems) map to `none`, the image of the thrown `URIError`. -/
def decodeURIComp : Str → Option Str
  | [] => some []
  | '%' :: a :: b :: rest =>
    match hexVal a, hexVal b with
    | some x, some y =>
      if 16 * x + y < 128 then (decodeURIComp rest).map (Char.ofNat (16 * x + y) :: ·)
      else none
    | _, _ => none
  | '%' :: _ => none
  | c :: rest => (decodeURIComp rest).map (c :: ·)

/-- `getFilenameFromUrl(fileUrl)` from `src/bypass403.js` (lines 5-27);
`now` models the formatted timestamp `new Date().toISOString()` with `:`
and `.` replaced by `-`.  Total: every anomaly is caught and answered with
the timestamp fallback. -/
def getFilenameFromUrl (now : Str) (fileUrl : Str) : Str :=
  match parseUrl fileUrl with
  | none => str "download-" ++ now ++ str ".bin"
  | some uo =>
    match decodeURIComp (jsBasename uo.pathname) with
    | none => str "download-" ++ now ++ str ".bin"
    | some fn1 =>
      let fn2 := jsSplitFirst '?' fn1
      if fn2 = [] ∨ fn2 = str "/" ∨ fn2 = uo.pathname then
        str "download-" ++ now ++ str ".bin"
      else fn2

/-- Strip one leading `'/'` (the `^\/` alternative of the source regex). -/
def stripLeadOne (p : Str) : Str :=
  if hasPfx (str "/") p then p.drop 1 else p

/-- Strip one trailing `'/'` (the `\/$` alternative of the source regex). -/
def stripTrailOne (p : Str) : Str :=
  if hasSfx (str "/") p then (p.reverse.drop 1).reverse else p

/-- The mirror output directory (constructor default `'./public'`). -/
def outputDirStr : Str := str "./public"

/-- `this.assetsDir = path.join(outputDir, 'assets')`. -/
def assetsDirStr : Str := pathJoin outputDirStr (str "assets")

/-- `this.fontsDir = path.join(this.assetsDir, 'fonts')`. -/
def fontsDirStr : Str := pathJoin assetsDirStr (str "fonts")

/-- `getPageOutputPath(url, filename)` (source lines 1500-1515).  The
`filename` argument is unused by the source; `none` models the `TypeError`
of `new URL(url)`. -/
def getPageOutputPath (outputDir : Str) (url fname : Str) : Option Str :=
  match parseUrl url with
  | none => none
  | some uo =>
    let pn := stripTrailOne (stripLeadOne uo.pathname)
    if pn = [] ∨ pn = str "/" ∨ pn = str "index.html" then
      some (pathJoin outputDir (str "index.html"))
    else if jsExtname pn ≠ [] then some (pathJoin outputDir pn)
    else some (pathJoin (pathJoin outputDir pn) (str "index.html"))

/-! ### Crawl state, statistics and the Asset Store
(`downloadAsset`, `downloadFontAsset`, `processAsset`)

The per-run mutable state of `SiteDownloader` (constructor, source lines
822-878) is embedded as an explicit record.  JS `Set`s and `Map`s become
insertion-ordered lists with set/map semantics.  Three effect traces record
the interactions with the collaborators: `fetchLog` (every URL for which an
HTTP request was issued), `writeLog` (every path handed to
`fs.outputFile`), and `skipLog` (every skip-large log line).  The network
and the filesystem are an `Oracle`, indexed by the length of the respective
trace so that successive attempts on the same URL may differ.

`fs.outputFile` and the post-write CSS pass `processCssFile` re-enter the
engine only through further `downloadFontAsset` calls; those re-entrant
calls are the separately embedded `processFontFaceBlock` steps, so a real
run's effect on the crawl state is a sequence of the operations embedded
here. -/

/-- One entry of `stats.urls.failed` (`{url, error, type}`). -/
structure FailRec where
  url : Str
  error : Str
  ty : Str
  deriving Repr, DecidableEq

/-- One entry of `stats.urls.successful` (`{url, localPath, type}`). -/
structure SuccRec where
  url : Str
  localPath : Str
  ty : Str
  deriving Repr, DecidableEq

/-- `if (!byType[k]) byType[k] = 0; byType[k]++` on the per-type counters. -/
def bump (m : List (Str × Nat)) (k : Str) : List (Str × Nat) :=
  if (m.find? fun p => p.1 == k).isSome then
    m.map fun p => if p.1 == k then (p.1, p.2 + 1) else p
  else m ++ [(k, 1)]

/-- The mutable `this.stats` counters the claims are about. -/
structure Stats where
  urlsSuccessful : List SuccRec := []
  urlsFailed : List FailRec := []
  succPages : Nat := 0
  succAssets : Nat := 0
  failPages : Nat := 0
  failAssets : Nat := 0
  succByType : List (Str × Nat) := []
  failByType : List (Str × Nat) := []
  deriving Repr, DecidableEq

/-- The per-run crawl state plus the effect traces. -/
structure CrawlState where
  assetMap : List (Str × Str) := []
  pendingDownloads : List Str := []
  failedDownloads : List Str := []
  successfulDownloads : List Str := []
  visitedUrls : List Str := []
  stats : Stats := {}
  fetchLog : List Str := []
  writeLog : List Str := []
  skipLog : List Str := []
  deriving Repr, DecidableEq

/-- The empty state of a fresh run. -/
def initState : CrawlState := {}

/-- JS `Set.has`. -/
def setMem (s : List Str) (x : Str) : Bool := s.contains x

/-- JS `Set.add` (no duplicates, insertion order kept). -/
def setAdd (s : List Str) (x : Str) : List Str :=
  if s.contains x then s else s ++ [x]

/-- JS `Set.delete`. -/
def setDel (s : List Str) (x : Str) : List Str := s.filter (· ≠ x)

/-- The immutable per-run configuration (constructor, source lines
1657-1665 of the class: `maxRetries: 3`, `maxFileSize: 50*1024*1024`,
`delayBetweenRequests: 100`, `skipLargeFiles: true`); `now` models
`Date.now()` where the source consults the clock. -/
structure Config where
  maxRetries : Nat
  maxFileSize : Nat
  skipLargeFiles : Bool
  delayBetweenRequests : Nat
  now : Nat

/-- The constructor's configuration values. -/
def defaultConfig : Config :=
  { maxRetries := 3, maxFileSize := 52428800, skipLargeFiles := true,
    delayBetweenRequests := 100, now := 0 }

/-- The response fields the Asset Store reads: `headers['content-type']`
(empty when absent) and `headers['content-length']` (a numeric string,
modelled as the number it coerces to; `none` when absent). -/
structure HttpResponse where
  contentType : Str := []
  contentLength : Option Nat := none

/-- The network and filesystem collaborators.  `fetch n u` is the outcome
of the whole `retryRequest(() => axios.get(u, …))` call when it is the
`n`-th request of the run (`n` = current `fetchLog` length); an `error` is
the exception it threw.  `write n p` is the outcome of the `n`-th
`fs.outputFile` call (`n` = current `writeLog` length). -/
structure Oracle where
  fetch : Nat → Str → Except Str HttpResponse
  write : Nat → Str → Except Str Unit

/-- `contentLength && contentLength > this.config.maxFileSize` (a missing
header is falsy; the numeric-string comparison coerces). -/
def oversize (cl : Option Nat) (maxB : Nat) : Bool :=
  match cl with
  | some n => decide (maxB < n)
  | none => false

/-- The `catch` bookkeeping shared by `downloadAsset`, `downloadFontAsset`
and `processAsset` (e.g. source lines 1255-1269): add to
`failedDownloads`, push `{url, error, type}` onto `stats.urls.failed`,
initialise-and-increment `stats.failed.byType[type]`, increment
`stats.failed.assets`. -/
def recordAssetFailure (st : CrawlState) (u e ty : Str) : CrawlState :=
  { st with
    failedDownloads := setAdd st.failedDownloads u,
    stats := { st.stats with
      urlsFailed := st.stats.urlsFailed ++ [⟨u, e, ty⟩],
      failByType := bump st.stats.failByType ty,
      failAssets := st.stats.failAssets + 1 } }

/-- The success bookkeeping of the asset paths (source lines 1234-1244):
increment `stats.successful.byType[type]` and `stats.successful.assets`,
push `{url, localPath, type}` onto `stats.urls.successful`. -/
def recordAssetSuccess (st : CrawlState) (u outPath ty : Str) : CrawlState :=
  { st with
    stats := { st.stats with
      succByType := bump st.stats.succByType ty,
      succAssets := st.stats.succAssets + 1,
      urlsSuccessful := st.stats.urlsSuccessful ++ [⟨u, outPath, ty⟩] } }

/-- The tail of `downloadAsset`'s success path (source lines 1227-1253):
resolve a filename, write under `assetsDir`, record the mapping and the
statistics.  A write error jumps to the `catch`.  The `processCssFile`
re-entry for `extension === 'css'` is embedded separately (see the section
comment). -/
def downloadAssetFinish (fuel : Nat) (o : Oracle) (st1 : CrawlState)
    (assetUrl ty extension : Str) : Option (Option Str × CrawlState) :=
  match generateFilename fuel st1.assetMap assetUrl ty (some extension) with
  | .thrown => some (none, recordAssetFailure st1 assetUrl errInvalidUrl ty)
  | .diverged => none
  | .name filename =>
    let outPath := pathJoin assetsDirStr filename
    let st2 := { st1 with writeLog := st1.writeLog ++ [outPath] }
    match o.write st1.writeLog.length outPath with
    | .error e => some (none, recordAssetFailure st2 assetUrl e ty)
    | .ok _ =>
      some (some filename,
        recordAssetSuccess
          { st2 with
            assetMap := mapSet st2.assetMap assetUrl filename,
            successfulDownloads := setAdd st2.successfulDownloads assetUrl }
          assetUrl outPath ty)

/-- `downloadAsset(assetUrl, type)` (source lines 1189-1271).  The result
is `some (localPath?, state')`; the outer `none` models divergence of the
filename uniqueness loop.  All exceptions of the body are caught by the
source's `catch` and appear as `recordAssetFailure` states — the result
type has no escape channel. -/
def downloadAsset (cfg : Config) (fuel : Nat) (o : Oracle) (st : CrawlState)
    (assetUrl ty : Str) : Option (Option Str × CrawlState) :=
  match mapGet st.assetMap assetUrl with
  | some p => some (some p, st)
  | none =>
    let st1 := { st with fetchLog := st.fetchLog ++ [assetUrl] }
    match o.fetch st.fetchLog.length assetUrl with
    | .error e => some (none, recordAssetFailure st1 assetUrl e ty)
    | .ok resp =>
      if cfg.skipLargeFiles && oversize resp.contentLength cfg.maxFileSize then
        some (none, { st1 with skipLog := st1.skipLog ++ [assetUrl] })
      else
        match getFileExtension assetUrl resp.contentType with
        | none => some (none, recordAssetFailure st1 assetUrl errInvalidUrl ty)
        | some extension =>
          if extension = [] then
            match isLikelyHtmlPage assetUrl resp.contentType with
            | none => some (none, recordAssetFailure st1 assetUrl errInvalidUrl ty)
            | some true =>
              match getPageOutputPath outputDirStr assetUrl (str "index.html") with
              | none => some (none, recordAssetFailure st1 assetUrl errInvalidUrl ty)
              | some pagePath =>
                let st2 := { st1 with writeLog := st1.writeLog ++ [pagePath] }
                match o.write st1.writeLog.length pagePath with
                | .error e => some (none, recordAssetFailure st2 assetUrl e ty)
                | .ok _ =>
                  some (none,
                    { st2 with
                      successfulDownloads := setAdd st2.successfulDownloads assetUrl,
                      stats := { st2.stats with
                        urlsSuccessful :=
                          st2.stats.urlsSuccessful ++ [⟨assetUrl, pagePath, str "page"⟩],
                        succPages := st2.stats.succPages + 1 } })
            | some false => downloadAssetFinish fuel o st1 assetUrl ty extension
          else downloadAssetFinish fuel o st1 assetUrl ty extension

/-- `downloadFontAsset(fontUrl)` (source lines 1273-1334): as
`downloadAsset`, but with the font extension rules, the `fonts`
subdirectory and the fixed type `'fonts'`. -/
def downloadFontAsset (cfg : Config) (fuel : Nat) (o : Oracle) (st : CrawlState)
    (fontUrl : Str) : Option (Option Str × CrawlState) :=
  match mapGet st.assetMap fontUrl with
  | some p => some (some p, st)
  | none =>
    let st1 := { st with fetchLog := st.fetchLog ++ [fontUrl] }
    match o.fetch st.fetchLog.length fontUrl with
    | .error e => some (none, recordAssetFailure st1 fontUrl e (str "fonts"))
    | .ok resp =>
      if cfg.skipLargeFiles && oversize resp.contentLength cfg.maxFileSize then
        some (none, { st1 with skipLog := st1.skipLog ++ [fontUrl] })
      else
        match getFontExtension fontUrl resp.contentType with
        | none => some (none, recordAssetFailure st1 fontUrl errInvalidUrl (str "fonts"))
        | some extension =>
          match generateFontFilename cfg.now fuel st1.assetMap fontUrl extension with
          | .thrown => some (none, recordAssetFailure st1 fontUrl errInvalidUrl (str "fonts"))
          | .diverged => none
          | .name filename =>
            let outPath := pathJoin fontsDirStr filename
            let st2 := { st1 with writeLog := st1.writeLog ++ [outPath] }
            match o.write st1.writeLog.length outPath with
            | .error e => some (none, recordAssetFailure st2 fontUrl e (str "fonts"))
            | .ok _ =>
              some (some filename,
                recordAssetSuccess
                  { st2 with
                    assetMap := mapSet st2.assetMap fontUrl filename,
                    successfulDownloads := setAdd st2.successfulDownloads fontUrl }
                  fontUrl outPath (str "fonts"))

/-- `finally { this.pendingDownloads.delete(url) }` of `processAsset`. -/
def pendingRelease (st : CrawlState) (u : Str) : CrawlState :=
  { st with pendingDownloads := setDel st.pendingDownloads u }

/-- `processAsset(url, baseUrl, type, callback)` (source lines 1153-1187).
The returned `Option Str` is the argument the source passes to `callback`
(the rewritten attribute value); `none` means the callback is never invoked.
The first line returns immediately — without waiting, fetching, or invoking
the callback — when `url` is already pending. -/
def processAsset (cfg : Config) (fuel : Nat) (o : Oracle) (st : CrawlState)
    (url baseUrl ty : Str) : Option (Option Str × CrawlState) :=
  if setMem st.pendingDownloads url then some (none, st)
  else
    let st1 := { st with pendingDownloads := setAdd st.pendingDownloads url }
    match resolveUrl url baseUrl with
    | none => some (none, pendingRelease (recordAssetFailure st1 url errInvalidUrl ty) url)
    | some assetUrl =>
      match (if ty = str "fonts" then downloadFontAsset cfg fuel o st1 assetUrl
             else downloadAsset cfg fuel o st1 assetUrl ty) with
      | none => none
      | some (res, st2) => some (res, pendingRelease st2 url)

/-! ### Traces of Asset Store operations

`runOps` runs a sequence of `downloadAsset` / `downloadFontAsset` calls;
any real run's effect on `assetMap` / `failedDownloads` /
`successfulDownloads` / statistics is such a sequence (pages touch only
`visitedUrls` and the page counters). -/

/-- One Asset Store operation of the main crawl. -/
inductive CrawlOp where
  | asset (url ty : Str)
  | font (url : Str)

/-- The URL an operation targets. -/
def CrawlOp.url : CrawlOp → Str
  | .asset u _ => u
  | .font u => u

/-- Run one operation. -/
def runOp (cfg : Config) (fuel : Nat) (o : Oracle) (st : CrawlState) :
    CrawlOp → Option (Option Str × CrawlState)
  | .asset u ty => downloadAsset cfg fuel o st u ty
  | .font u => downloadFontAsset cfg fuel o st u

/-- Run a sequence of operations, threading the state. -/
def runOps (cfg : Config) (fuel : Nat) (o : Oracle) :
    List CrawlOp → CrawlState → Option CrawlState
  | [], st => some st
  | op :: rest, st =>
    match runOp cfg fuel o st op with
    | none => none
    | some (_, st') => runOps cfg fuel o rest st'

/-! ### Retry Coordinator: `retryRequest` (source lines 1668-1680)

`retryRequest(requestFn, retries)` runs
`for (attempt = 1; attempt <= retries; attempt++) { try { return await
requestFn() } catch { if (attempt === retries) throw; await
delay(1000 * attempt) } }`.  The transport is an oracle `f` mapping the
attempt number to that attempt's outcome. -/

/-- Observable outcome of `retryRequest`: the returned/thrown result
(`none` models the `undefined` return when the loop body never runs),
the number of transport invocations, and the backoff delays awaited, in
milliseconds, in order. -/
structure RetryOut (ε α : Type) where
  res : Option (Except ε α)
  calls : Nat
  delays : List Nat
  deriving Repr

/-- The loop of `retryRequest`, from attempt number `attempt`; the fuel is
the number of loop iterations still allowed by `attempt <= retries`. -/
def retryAux (f : Nat → Except ε α) (retries : Nat) :
    Nat → Nat → RetryOut ε α
  | _, 0 => ⟨none, 0, []⟩
  | attempt, fuel + 1 =>
    match f attempt with
    | .ok a => ⟨some (.ok a), 1, []⟩
    | .error e =>
      if attempt = retries then ⟨some (.error e), 1, []⟩
      else
        let r := retryAux f retries (attempt + 1) fuel
        ⟨r.res, r.calls + 1, 1000 * attempt :: r.delays⟩

/-- `retryRequest(requestFn, retries)`. -/
def retryRequest (f : Nat → Except ε α) (retries : Nat) : RetryOut ε α :=
  retryAux f retries 1 retries

/-! ### Rewriter: CSS `url(...)` scanning
(`rewriteCssUrls`, source lines 1399-1421, and `processFontFaceBlock`,
source lines 1350-1385)

The regex `/url\(['"]?([^'")]+)['"]?\)/gi` is embedded as a deterministic
scanner with the regex's exact semantics: at a match position, `url(` is
consumed, one optional quote, a maximal nonempty run of characters outside
`'`, `"`, `)` (the captured reference), then either a closing quote
followed by `)` or `)` directly; otherwise (including the backtracking
cases) there is no match at this position and scanning advances one
character, as `lastIndex` does. -/

/-- Is `c` one of the optional quote characters of the regex. -/
def isQuoteChar (c : Char) : Bool := c = '\'' || c = '"'

/-- Try to match the `url(...)` token at the head of `l`.  Returns
`(matchedText, capturedRef, remainder)`; the matched text is rebuilt from
its parts (`url(`, the optional quote, the capture, the optional closing
quote and `)`), which is character-for-character the consumed span. -/
def matchUrlTok (l : Str) : Option (Str × Str × Str) :=
  if hasPfx (str "url(") l then
    let l1 := l.drop 4
    let q : Option Char :=
      match l1.head? with
      | some c => if isQuoteChar c then some c else none
      | none => none
    let qs : Str := match q with
      | some qc => [qc]
      | none => []
    let l2 := match q with
      | some _ => l1.drop 1
      | none => l1
    let ref := l2.takeWhile fun c => !isQuoteChar c && c ≠ ')'
    if ref = [] then none
    else
      let l3 := l2.drop ref.length
      match l3.head? with
      | some c =>
        if c = ')' then
          some (str "url(" ++ qs ++ ref ++ [')'], ref, l3.drop 1)
        else if isQuoteChar c then
          match (l3.drop 1).head? with
          | some c2 =>
            if c2 = ')' then
              some (str "url(" ++ qs ++ ref ++ [c, ')'], ref, l3.drop 2)
            else none
          | none => none
        else none
      | none => none
  else none

/-- Global scan-and-replace over the `url(...)` tokens; `cb` receives the
matched text and the captured reference, as the source's replacer callback
does.  The fuel starts at the input length; each step consumes at least one
character, so the fuel never runs out on the way. -/
def cssReplaceGo (cb : Str → Str → Str) : Nat → Str → Str
  | 0, l => l
  | _ + 1, [] => []
  | fuel + 1, c :: rest =>
    match matchUrlTok (c :: rest) with
    | some (m, ref, remaining) => cb m ref ++ cssReplaceGo cb fuel remaining
    | none => c :: cssReplaceGo cb fuel rest

/-- Collect the captured references of all `url(...)` matches, in order
(the `while ((urlMatch = urlRegex.exec(srcValue)) !== null)` loop). -/
def cssScanGo : Nat → Str → List Str
  | 0, _ => []
  | _ + 1, [] => []
  | fuel + 1, c :: rest =>
    match matchUrlTok (c :: rest) with
    | some (_, ref, remaining) => ref :: cssScanGo fuel remaining
    | none => cssScanGo fuel rest

/-- The references captured by `urlRegex` over `s`, in order. -/
def cssUrlRefs (s : Str) : List Str := cssScanGo s.length s

/-- The replacer callback of `rewriteCssUrls` (source lines 1400-1420):
`data:` / `#` / `assets/` references and references that fail to resolve or
have no `assetMap` entry yield the match unchanged; a mapped reference is
replaced by its local path, under `assets/fonts/` when `isFontFile(url)`. -/
def cssUrlCb (am : List (Str × Str)) (base : Str) (m ref : Str) : Str :=
  if hasPfx (str "data:") ref || hasPfx (str "#") ref || hasPfx (str "assets/") ref then m
  else
    match resolveUrl ref base with
    | none => m
    | some u =>
      match mapGet am u with
      | some lp =>
        if isFontFile ref then str "url(assets/fonts/" ++ lp ++ str ")"
        else str "url(assets/" ++ lp ++ str ")"
      | none => m

/-- `rewriteCssUrls(cssContent, baseUrl)` (source lines 1399-1421): a pure
function of the CSS text, the base URL and the current `assetMap` — it
takes no oracle and returns no state, so it can neither fetch nor mutate. -/
def rewriteCssUrls (am : List (Str × Str)) (base css : Str) : Str :=
  cssReplaceGo (cssUrlCb am base) css.length css

/-- JS `\s` (the ASCII whitespace the theorems exercise). -/
def wsChar (c : Char) : Bool :=
  c = ' ' || c = '\t' || c = '\n' || c = '\r' || c = '\x0b' || c = '\x0c'

/-- Try to match `/src:\s*([^;]+);/i` at the head of `l`: `src:`
case-insensitively, then the regex's backtracking split of the run up to
`';'` between `\s*` and the captured `([^;]+)`.  Returns the captured
group and the remainder after the `';'`. -/
def matchSrcTok (l : Str) : Option (Str × Str) :=
  if hasPfx (str "src:") (toLowerStr (l.take 4)) then
    let l1 := l.drop 4
    let run := l1.takeWhile (· ≠ ';')
    match l1.drop run.length with
    | ';' :: rest =>
      let w := run.takeWhile wsChar
      let g := run.drop w.length
      if g = [] then
        -- `[^;]+` needs one character: `\s*` backtracks by one, capturing
        -- the last whitespace character of the (necessarily nonempty) run.
        match run.reverse with
        | [] => none
        | lc :: _ => some ([lc], rest)
      else some (g, rest)
    | _ => none
  else none

/-- Collect the captured groups of `/src:\s*([^;]+);/gi` over `l`, in order
(the `while ((srcMatch = srcRegex.exec(fontFaceBlock)) !== null)` loop);
scanning resumes after each match's `';'`. -/
def srcScanGo : Nat → Str → List Str
  | 0, _ => []
  | _ + 1, [] => []
  | fuel + 1, c :: rest =>
    match matchSrcTok (c :: rest) with
    | some (g, remaining) => g :: srcScanGo fuel remaining
    | none => srcScanGo fuel rest

/-- The `src:` declaration values captured in a `@font-face` block. -/
def srcDecls (block : Str) : List Str := srcScanGo block.length block

/-- The per-reference body of `processFontFaceBlock`'s inner loop (source
lines 1362-1379): skip `data:` and `assets/` references (note: `'#'` is
*not* exempted here, unlike in `rewriteCssUrls`); resolve against the base
(a resolution failure is caught and ignored); download as a font; on a
non-null local path, substitute the first occurrence of the original
reference inside the accumulating `src` value. -/
def fontFaceUrlStep (cfg : Config) (fuel : Nat) (o : Oracle) (base : Str)
    (acc : CrawlState × Str) (origUrl : Str) : Option (CrawlState × Str) :=
  if hasPfx (str "data:") origUrl || hasPfx (str "assets/") origUrl then some acc
  else
    match resolveUrl origUrl base with
    | none => some acc
    | some fontUrl =>
      match downloadFontAsset cfg fuel o acc.1 fontUrl with
      | none => none
      | some (none, st') => some (st', acc.2)
      | some (some lp, st') =>
        some (st', jsReplaceFirst acc.2 origUrl (str "assets/fonts/" ++ lp))

/-- One `src:` declaration of `processFontFaceBlock`'s outer loop (source
lines 1357-1382): run the inner loop over the references captured in the
original `srcValue`, then substitute the first occurrence of the original
`srcValue` inside the accumulating block. -/
def fontFaceSrcStep (cfg : Config) (fuel : Nat) (o : Oracle) (base : Str)
    (acc : CrawlState × Str) (srcValue : Str) : Option (CrawlState × Str) :=
  match (cssUrlRefs srcValue).foldlM (fontFaceUrlStep cfg fuel o base) (acc.1, srcValue) with
  | none => none
  | some (st', modifiedSrc) => some (st', jsReplaceFirst acc.2 srcValue modifiedSrc)

/-- `processFontFaceBlock(fontFaceBlock, baseUrl)` (source lines
1350-1385): returns the rewritten block and the state after the font
downloads it triggers. -/
def processFontFaceBlock (cfg : Config) (fuel : Nat) (o : Oracle) (st : CrawlState)
    (block base : Str) : Option (CrawlState × Str) :=
  (srcDecls block).foldlM (fontFaceSrcStep cfg fuel o base) (st, block)

/-! ### Spec-side definition for the page path mapping (claim C9) -/

/-- Drop all leading and trailing `'/'` characters. -/
def stripAllSlashes (p : Str) : Str :=
  dropTrailSlashes (p.dropWhile (· = '/'))

/-- The output path mapping exactly as the specification words it: the URL
path with leading/trailing slashes stripped becomes a directory; a
remaining path with a file extension is used verbatim as the output file;
otherwise `index.html` is appended inside that directory; an empty path
maps to the mirror root's `index.html`. -/
def pageOutputPathSpec (outputDir pathname : Str) : Str :=
  let core := stripAllSlashes pathname
  if core = [] then pathJoin outputDir (str "index.html")
  else if jsExtname core ≠ [] then pathJoin outputDir core
  else pathJoin (pathJoin outputDir core) (str "index.html")

/-! ## Shared lemmas about the set and map embeddings -/

theorem setMem_iff {s : List Str} {x : Str} : setMem s x = true ↔ x ∈ s := by
  simp [setMem, List.contains, List.elem_iff]

theorem mem_setAdd {s : List Str} {x y : Str} : y ∈ setAdd s x ↔ y ∈ s ∨ y = x := by
  unfold setAdd
  split
  · rename_i h
    constructor
    · exact fun hy => Or.inl hy
    · rintro (hy | rfl)
      · exact hy
      · exact (setMem_iff (s := s) (x := y)).mp h
  · simp

theorem mapGet_mapSet_self (m : List (Str × Str)) (k v : Str) :
    mapGet (mapSet m k v) k = some v := by
  induction m with
  | nil => simp [mapGet, mapSet]
  | cons p t ih =>
    by_cases hk : p.1 = k
    · simp [mapGet, mapSet, List.find?, hk]
    · have hk' : (p.1 == k) = false := by simpa using hk
      unfold mapSet at ih ⊢
      simp only [List.find?, hk', List.map_cons, List.cons_append]
      split
      · rename_i hs
        simp only [hs, if_true] at ih
        simp [mapGet, List.find?, hk', mapGet] at ih ⊢
        exact ih
      · rename_i hs
        simp only [hs, if_false] at ih
        simp [mapGet, List.find?, hk'] at ih ⊢
        exact ih

/-- A successful `downloadAssetFinish` records the returned filename in
`assetMap` for its URL and leaves `fetchLog` as it found it. -/
theorem downloadAssetFinish_success (fuel : Nat) (o : Oracle) (st1 : CrawlState)
    (u ty ext f : Str) (stR : CrawlState)
    (h : downloadAssetFinish fuel o st1 u ty ext = some (some f, stR)) :
    mapGet stR.assetMap u = some f ∧ stR.fetchLog = st1.fetchLog := by
  unfold downloadAssetFinish at h
  split at h
  · simp at h
  · simp at h
  · rename_i filename hgen
    simp only at h
    split at h
    · simp at h
    · rw [Option.some_inj, Prod.mk.injEq] at h
      obtain ⟨hf, hst⟩ := h
      rw [Option.some_inj] at hf
      subst hf
      subst hst
      exact ⟨mapGet_mapSet_self _ _ _, rfl⟩

/-- A successful fresh `downloadAsset` records the returned filename in
`assetMap` and appends exactly one entry to `fetchLog`. -/
theorem downloadAsset_success_map (cfg : Config) (fuel : Nat) (o : Oracle)
    (st : CrawlState) (u ty f : Str) (stR : CrawlState)
    (hmap : mapGet st.assetMap u = none)
    (h : downloadAsset cfg fuel o st u ty = some (some f, stR)) :
    mapGet stR.assetMap u = some f ∧ stR.fetchLog = st.fetchLog ++ [u] := by
  unfold downloadAsset at h
  rw [hmap] at h
  simp only at h
  split at h
  · simp at h
  · split at h
    · simp at h
    · split at h
      · simp at h
      · rename_i ext hext
        split at h
        · split at h
          · simp at h
          · split at h
            · simp at h
            · split at h
              · simp at h
              · simp at h
          · exact downloadAssetFinish_success _ _ _ _ _ _ _ _ h
        · exact downloadAssetFinish_success _ _ _ _ _ _ _ _ h

/-! ## Claim C2 -/

/-- C2: if `downloadAsset` (or `downloadFontAsset`) is called with a URL
already present in `assetMap`, it returns the identical previously recorded
local path and the state — `assetMap`, the succeeded/failed sets, the
statistics and the effect traces (in particular `fetchLog`: no network
request) — is returned unchanged; and after a successful fresh download the
second call for the same URL returns the same path with the run having
issued exactly one fetch for it. -/
theorem downloadAsset_dedup (cfg : Config) (fuel : Nat) (o : Oracle)
    (st : CrawlState) (url ty : Str) :
    (∀ p, mapGet st.assetMap url = some p →
        downloadAsset cfg fuel o st url ty = some (some p, st) ∧
        downloadFontAsset cfg fuel o st url = some (some p, st)) ∧
    (∀ f stR, mapGet st.assetMap url = none →
        downloadAsset cfg fuel o st url ty = some (some f, stR) →
        downloadAsset cfg fuel o stR url ty = some (some f, stR) ∧
        stR.fetchLog = st.fetchLog ++ [url]) := by
  constructor
  · intro p hp
    constructor
    · unfold downloadAsset; rw [hp]
    · unfold downloadFontAsset; rw [hp]
  · intro f stR hmap h
    obtain ⟨hm, hf⟩ := downloadAsset_success_map cfg fuel o st url ty f stR hmap h
    refine ⟨?_, hf⟩
    unfold downloadAsset; rw [hm]

/-- Oracle whose answers are never reached by the deduplicated calls. -/
def c2Oracle : Oracle :=
  { fetch := fun _ _ => .error (str "unreached"),
    write := fun _ _ => .error (str "unreached") }

/-- A state that already maps the asset URL. -/
def c2State : CrawlState :=
  { initState with assetMap := [(str "https://x.test/a.png", str "a.png")] }

/-- Witness for C2 at a concrete state: both stores answer the recorded
path and leave the state untouched. -/
theorem downloadAsset_dedup_witness :
    downloadAsset defaultConfig 1 c2Oracle c2State (str "https://x.test/a.png")
        (str "images") = some (some (str "a.png"), c2State) ∧
    downloadFontAsset defaultConfig 1 c2Oracle c2State (str "https://x.test/a.png") =
        some (some (str "a.png"), c2State) :=
  (downloadAsset_dedup defaultConfig 1 c2Oracle c2State (str "https://x.test/a.png")
    (str "images")).1 (str "a.png") rfl

/-! ## Claim C3: helper lemmas for the extension/filename chain -/

/-- `getFileExtension` answers on every URL the parser accepts. -/
theorem getFileExtension_of_parse (u ct : Str) (uo : UrlObj)
    (hp : parseUrl u = some uo) : ∃ x, getFileExtension u ct = some x := by
  unfold getFileExtension
  simp only [hp]
  split
  · exact ⟨_, rfl⟩
  · split
    · exact ⟨_, rfl⟩
    · exact ⟨_, rfl⟩

/-- A defined `getFileExtension` means the URL parsed. -/
theorem parse_of_getFileExtension (u ct x : Str)
    (h : getFileExtension u ct = some x) : ∃ uo, parseUrl u = some uo := by
  cases hp : parseUrl u with
  | none => unfold getFileExtension at h; rw [hp] at h; cases h
  | some uo => exact ⟨uo, rfl⟩

/-- A defined `getFontExtension` means the URL parsed. -/
theorem parse_of_getFontExtension (u ct x : Str)
    (h : getFontExtension u ct = some x) : ∃ uo, parseUrl u = some uo := by
  cases hp : parseUrl u with
  | none => unfold getFontExtension at h; rw [hp] at h; cases h
  | some uo => exact ⟨uo, rfl⟩

/-- `extOrLookup` is undefined only when `getFileExtension` is. -/
theorem extOrLookup_none (url : Str) (ext : Option Str)
    (h : extOrLookup url ext = none) : getFileExtension url [] = none := by
  unfold extOrLookup at h
  split at h
  · split at h
    · exact h
    · cases h
  · exact h

/-- Core of `baseNameWithExt_none`, with the candidate name abstracted. -/
theorem bnweCore_none (url : Str) (ext : Option Str) (nm2 : Str)
    (h : (if jsExtname nm2 = [] then
            match extOrLookup url ext with
            | none => none
            | some e => some (if e = [] then nm2 ++ str ".bin" else nm2 ++ '.' :: e)
          else some nm2) = none) : getFileExtension url [] = none := by
  split at h
  · cases hE : extOrLookup url ext with
    | none => exact extOrLookup_none url ext hE
    | some e =>
      rw [hE] at h
      exact Option.noConfusion h
  · exact Option.noConfusion h

/-- The only parsing anomaly inside `baseNameWithExt` is the re-parse of
`getFileExtension`. -/
theorem baseNameWithExt_none (url ty p : Str) (ext : Option Str)
    (h : baseNameWithExt url ty ext p = none) : getFileExtension url [] = none := by
  unfold baseNameWithExt at h
  simp only at h
  exact bnweCore_none url ext _ h

/-- `baseNameWithExt` answers on every URL the parser accepts. -/
theorem baseNameWithExt_some (url ty p : Str) (ext : Option Str) (uo : UrlObj)
    (hp : parseUrl url = some uo) : ∃ x, baseNameWithExt url ty ext p = some x := by
  cases hb : baseNameWithExt url ty ext p with
  | some x => exact ⟨x, rfl⟩
  | none =>
    obtain ⟨g, hg⟩ := getFileExtension_of_parse url [] uo hp
    rw [baseNameWithExt_none url ty p ext hb] at hg
    cases hg

/-- On a URL the parser accepts and with no existing `assetMap` assignment
for that URL, `generateFilename` neither throws nor enters the uniqueness
loop: it returns a name. -/
theorem generateFilename_fresh (fuel : Nat) (am : List (Str × Str)) (url ty : Str)
    (ext : Option Str) (uo : UrlObj) (hp : parseUrl url = some uo)
    (hm : mapGet am url = none) :
    ∃ s, generateFilename fuel am url ty ext = .name s := by
  obtain ⟨x, hx⟩ := baseNameWithExt_some url ty uo.pathname ext uo hp
  unfold generateFilename
  simp only [hp, hx, hm]
  exact ⟨_, rfl⟩

/-- As `generateFilename_fresh`, for `generateFontFilename`. -/
theorem generateFontFilename_fresh (now fuel : Nat) (am : List (Str × Str))
    (url fext : Str) (uo : UrlObj) (hp : parseUrl url = some uo)
    (hm : mapGet am url = none) :
    ∃ s, generateFontFilename now fuel am url fext = .name s := by
  unfold generateFontFilename
  simp only [hp, hm]
  exact ⟨_, rfl⟩

/-- C3: when the fetch — or the file write — fails, `downloadAsset` and
`downloadFontAsset` return `null` rather than raising past the Asset Store
boundary (the embedding's result has no exception channel: every anomaly of
the `try` body lands in a `recordAssetFailure` state), the URL joins the
failed set, and a failure record `(url, error message, category)` is
appended to the statistics. -/
theorem assetStore_failure_recorded (cfg : Config) (fuel : Nat) (o : Oracle)
    (st : CrawlState) (url ty e : Str)
    (hmap : mapGet st.assetMap url = none) :
    (o.fetch st.fetchLog.length url = .error e →
      ∃ st', downloadAsset cfg fuel o st url ty = some (none, st') ∧
        url ∈ st'.failedDownloads ∧
        st'.stats.urlsFailed = st.stats.urlsFailed ++ [⟨url, e, ty⟩] ∧
        st'.stats.failAssets = st.stats.failAssets + 1) ∧
    (o.fetch st.fetchLog.length url = .error e →
      ∃ st', downloadFontAsset cfg fuel o st url = some (none, st') ∧
        url ∈ st'.failedDownloads ∧
        st'.stats.urlsFailed = st.stats.urlsFailed ++ [⟨url, e, str "fonts"⟩] ∧
        st'.stats.failAssets = st.stats.failAssets + 1) ∧
    (∀ resp ext, o.fetch st.fetchLog.length url = .ok resp →
      (cfg.skipLargeFiles && oversize resp.contentLength cfg.maxFileSize) = false →
      getFileExtension url resp.contentType = some ext → ext ≠ [] →
      (∀ p, o.write st.writeLog.length p = .error e) →
      ∃ st', downloadAsset cfg fuel o st url ty = some (none, st') ∧
        url ∈ st'.failedDownloads ∧
        st'.stats.urlsFailed = st.stats.urlsFailed ++ [⟨url, e, ty⟩]) ∧
    (∀ resp fext, o.fetch st.fetchLog.length url = .ok resp →
      (cfg.skipLargeFiles && oversize resp.contentLength cfg.maxFileSize) = false →
      getFontExtension url resp.contentType = some fext →
      (∀ p, o.write st.writeLog.length p = .error e) →
      ∃ st', downloadFontAsset cfg fuel o st url = some (none, st') ∧
        url ∈ st'.failedDownloads ∧
        st'.stats.urlsFailed = st.stats.urlsFailed ++ [⟨url, e, str "fonts"⟩]) := by
  refine ⟨?_, ?_, ?_, ?_⟩
  · intro hf
    have hEq : downloadAsset cfg fuel o st url ty =
        some (none, recordAssetFailure { st with fetchLog := st.fetchLog ++ [url] }
          url e ty) := by
      unfold downloadAsset
      simp only [hmap, hf]
    exact ⟨_, hEq, mem_setAdd.mpr (Or.inr rfl), rfl, rfl⟩
  · intro hf
    have hEq : downloadFontAsset cfg fuel o st url =
        some (none, recordAssetFailure { st with fetchLog := st.fetchLog ++ [url] }
          url e (str "fonts")) := by
      unfold downloadFontAsset
      simp only [hmap, hf]
    exact ⟨_, hEq, mem_setAdd.mpr (Or.inr rfl), rfl, rfl⟩
  · intro resp ext hf hsz hext hne hw
    obtain ⟨uo, hp⟩ := parse_of_getFileExtension url resp.contentType ext hext
    obtain ⟨s, hs⟩ :=
      generateFilename_fresh fuel st.assetMap url ty (some ext) uo hp hmap
    have hEq : downloadAsset cfg fuel o st url ty =
        some (none, recordAssetFailure
          { st with fetchLog := st.fetchLog ++ [url],
                    writeLog := st.writeLog ++ [pathJoin assetsDirStr s] }
          url e ty) := by
      unfold downloadAsset
      simp only [hmap, hf, hsz, Bool.false_eq_true, if_false, hext]
      rw [if_neg hne]
      unfold downloadAssetFinish
      simp only [hs, hw]
    exact ⟨_, hEq, mem_setAdd.mpr (Or.inr rfl), rfl⟩
  · intro resp fext hf hsz hfext hw
    obtain ⟨uo, hp⟩ := parse_of_getFontExtension url resp.contentType fext hfext
    obtain ⟨s, hs⟩ :=
      generateFontFilename_fresh cfg.now fuel st.assetMap url fext uo hp hmap
    have hEq : downloadFontAsset cfg fuel o st url =
        some (none, recordAssetFailure
          { st with fetchLog := st.fetchLog ++ [url],
                    writeLog := st.writeLog ++ [pathJoin fontsDirStr s] }
          url e (str "fonts")) := by
      unfold downloadFontAsset
      simp only [hmap, hf, hsz, Bool.false_eq_true, if_false, hfext, hs, hw]
    exact ⟨_, hEq, mem_setAdd.mpr (Or.inr rfl), rfl⟩

/-- Oracle for the C3 witness: the network always times out. -/
def c3Oracle : Oracle :=
  { fetch := fun _ _ => .error (str "timeout"), write := fun _ _ => .ok () }

/-- Witness for C3 at a concrete input: a timed-out image fetch yields a
`null` result, membership in the failed set, a failure record and a bumped
failure counter. -/
theorem assetStore_failure_recorded_witness :
    ∃ st', downloadAsset defaultConfig 1 c3Oracle initState
        (str "https://x.test/a.png") (str "images") = some (none, st') ∧
      (str "https://x.test/a.png") ∈ st'.failedDownloads ∧
      st'.stats.urlsFailed = initState.stats.urlsFailed ++
        [⟨str "https://x.test/a.png", str "timeout", str "images"⟩] ∧
      st'.stats.failAssets = initState.stats.failAssets + 1 :=
  (assetStore_failure_recorded defaultConfig 1 c3Oracle initState
    (str "https://x.test/a.png") (str "images") (str "timeout") rfl).1 rfl

/-! ## Claim C5 -/

/-- C5: when the response declares a content length exceeding
`maxFileSizeBytes` and `skipLargeFiles` is set, `downloadAsset` and
`downloadFontAsset` return `null` with the skip logged (`skipLog`, the
source's "Skipping large file" log line) and the state otherwise exactly as
before the call: no file write (`writeLog` unchanged), no failed-set entry
and no failure statistics. -/
theorem skipLarge_recorded_skipped (cfg : Config) (fuel : Nat) (o : Oracle)
    (st : CrawlState) (url ty : Str) (resp : HttpResponse) (n : Nat)
    (hmap : mapGet st.assetMap url = none)
    (hf : o.fetch st.fetchLog.length url = .ok resp)
    (hcl : resp.contentLength = some n)
    (hn : cfg.maxFileSize < n)
    (hs : cfg.skipLargeFiles = true) :
    downloadAsset cfg fuel o st url ty =
      some (none, { st with fetchLog := st.fetchLog ++ [url],
                            skipLog := st.skipLog ++ [url] }) ∧
    downloadFontAsset cfg fuel o st url =
      some (none, { st with fetchLog := st.fetchLog ++ [url],
                            skipLog := st.skipLog ++ [url] }) := by
  have hsz : (cfg.skipLargeFiles && oversize resp.contentLength cfg.maxFileSize) = true := by
    simp [hs, oversize, hcl, hn]
  constructor
  · unfold downloadAsset
    simp only [hmap, hf, hsz, if_true]
  · unfold downloadFontAsset
    simp only [hmap, hf, hsz, if_true]

/-- Oracle for the C5 witness: declares one byte above the 50 MiB ceiling. -/
def c5Oracle : Oracle :=
  { fetch := fun _ _ =>
      .ok { contentType := str "image/png", contentLength := some 52428801 },
    write := fun _ _ => .error (str "unreached") }

/-- Witness for C5 at a concrete input. -/
theorem skipLarge_recorded_skipped_witness :
    downloadAsset defaultConfig 1 c5Oracle initState (str "https://x.test/big.png")
        (str "images") =
      some (none, { initState with
        fetchLog := initState.fetchLog ++ [str "https://x.test/big.png"],
        skipLog := initState.skipLog ++ [str "https://x.test/big.png"] }) ∧
    downloadFontAsset defaultConfig 1 c5Oracle initState (str "https://x.test/big.png") =
      some (none, { initState with
        fetchLog := initState.fetchLog ++ [str "https://x.test/big.png"],
        skipLog := initState.skipLog ++ [str "https://x.test/big.png"] }) :=
  skipLarge_recorded_skipped defaultConfig 1 c5Oracle initState
    (str "https://x.test/big.png") (str "images") _ 52428801 rfl rfl rfl
    (by decide) rfl

/-! ## Claim C6 -/

/-- Oracle for the C6 counterexample; never consulted. -/
def c6Oracle : Oracle :=
  { fetch := fun _ _ => .error (str "unreached"),
    write := fun _ _ => .error (str "unreached") }

/-- A state in which the URL is in flight (pending) and its local path is
already recorded in `assetMap` — the situation in which the claim promises
the second caller obtains that path after waiting. -/
def c6State : CrawlState :=
  { initState with
    pendingDownloads := [str "https://x.test/a.png"],
    assetMap := [(str "https://x.test/a.png", str "a.png")] }

/-- C6 counterexample: with the URL pending, `processAsset` returns at once
with `none` — the callback argument the source would rewrite the attribute
with is never produced (the claim predicts `some "a.png"`), no re-check of
`assetMap` happens, and the state (including `fetchLog`) is untouched.  The
asset is silently skipped. -/
theorem processAsset_pending_no_wait_cex :
    processAsset defaultConfig 1 c6Oracle c6State (str "https://x.test/a.png")
        (str "https://x.test/") (str "images") = some (none, c6State) ∧
    some (none, c6State) ≠
      (some (some (str "a.png"), c6State) : Option (Option Str × CrawlState)) := by
  constructor
  · rfl
  · intro h
    rw [Option.some_inj, Prod.mk.injEq] at h
    exact Option.noConfusion h.1

/-- C6 amended: when `processAsset` is invoked for a URL already in the
pending set, no duplicate network request is issued — but not by waiting:
the call returns immediately with no callback invocation, no `assetMap`
re-check and no state change, so the second referencing element's
attribute is left unrewritten. -/
theorem processAsset_pending_returns_immediately (cfg : Config) (fuel : Nat)
    (o : Oracle) (st : CrawlState) (url baseUrl ty : Str)
    (hp : setMem st.pendingDownloads url = true) :
    processAsset cfg fuel o st url baseUrl ty = some (none, st) := by
  unfold processAsset
  simp only [hp, if_true]

/-- Witness for the amended C6 at a concrete pending state. -/
theorem processAsset_pending_returns_immediately_witness :
    processAsset defaultConfig 1 c6Oracle c6State (str "https://x.test/a.png")
        (str "https://x.test/") (str "images") = some (none, c6State) :=
  processAsset_pending_returns_immediately defaultConfig 1 c6Oracle c6State
    (str "https://x.test/a.png") (str "https://x.test/") (str "images") rfl

/-! ## Claim C1 -/

/-- Oracle for the C1 run: both images fetch and write successfully. -/
def c1Oracle : Oracle :=
  { fetch := fun _ _ => .ok { contentType := str "image/png", contentLength := none },
    write := fun _ _ => .ok () }

/-- First colliding URL of the spec's own scenario. -/
def c1Url1 : Str := str "https://x.test/img/a.png"

/-- Second, distinct colliding URL. -/
def c1Url2 : Str := str "https://x.test/other/a.png"

/-- The run downloading both colliding images. -/
def c1Final : Option CrawlState :=
  runOps defaultConfig 5 c1Oracle
    [.asset c1Url1 (str "images"), .asset c1Url2 (str "images")] initState

/-- C1 (code bug): the uniqueness loop of `generateFilename` tests
`assetMap.has(url)` for the *requesting* URL — which its callers guarantee
is absent — instead of testing whether the name is assigned to a different
URL, so it can never append `-1`, `-2`, ….  At the spec's own scenario
(`/img/a.png` and `/other/a.png`), both distinct URLs are recorded in
`assetMap` with the same filename `a.png` in the same `assets` directory,
and the same output path is written twice (the second download overwrites
the first); the third conjunct evaluates `generateFilename` directly with
the conflicting assignment present. -/
theorem generateFilename_collision_unsuffixed :
    c1Url1 ≠ c1Url2 ∧
    c1Final.map (fun stf =>
        (mapGet stf.assetMap c1Url1, mapGet stf.assetMap c1Url2, stf.writeLog)) =
      some (some (str "a.png"), some (str "a.png"),
        [pathJoin assetsDirStr (str "a.png"), pathJoin assetsDirStr (str "a.png")]) ∧
    generateFilename 5 [(c1Url1, str "a.png")] c1Url2 (str "images")
        (some (str "png")) = .name (str "a.png") := by
  refine ⟨by decide, rfl, rfl⟩

/-! ## Claim C4 -/

/-- Oracle for the C4 counterexample: the first request for the URL times
out, the re-attempt succeeds. -/
def c4Oracle : Oracle :=
  { fetch := fun n _ =>
      if n = 0 then .error (str "timeout")
      else .ok { contentType := str "image/png", contentLength := none },
    write := fun _ _ => .ok () }

/-- The URL that first fails and then succeeds within the main crawl. -/
def c4Url : Str := str "https://x.test/a.png"

/-- The two main-crawl attempts on the same URL (two elements referencing
the same image; the pending guard is released after the first failure). -/
def c4Final : Option CrawlState :=
  runOps defaultConfig 5 c4Oracle
    [.asset c4Url (str "images"), .asset c4Url (str "images")] initState

/-- C4 counterexample: after a failed and then a successful main-crawl
`downloadAsset` for the same URL — no Retry Coordinator involved — the URL
is in the failed *and* the succeeded set simultaneously: the sets are not
disjoint, and the URL entered succeeded from failed through an ordinary
main-crawl operation that never removed it from failed. -/
theorem failed_succeeded_intersect_cex :
    c4Final.map (fun stf =>
        (setMem stf.failedDownloads c4Url, setMem stf.successfulDownloads c4Url)) =
      some (true, true) := rfl

/-- How a single Asset Store operation on URL `u` may touch the failed and
succeeded sets: it only ever adds, it adds only `u`, and it adds `u` to at
most one of the two sets. -/
def SetStep (st st' : CrawlState) (u : Str) : Prop :=
  (∀ x, x ∈ st'.failedDownloads → x ∈ st.failedDownloads ∨ x = u) ∧
  (∀ x, x ∈ st'.successfulDownloads → x ∈ st.successfulDownloads ∨ x = u) ∧
  (∀ x, x ∈ st.failedDownloads → x ∈ st'.failedDownloads) ∧
  (∀ x, x ∈ st.successfulDownloads → x ∈ st'.successfulDownloads) ∧
  ((u ∉ st.failedDownloads ∧ u ∉ st.successfulDownloads) →
    ¬ (u ∈ st'.failedDownloads ∧ u ∈ st'.successfulDownloads))

theorem setStep_unchanged {st st' : CrawlState} {u : Str}
    (hf : st'.failedDownloads = st.failedDownloads)
    (hs : st'.successfulDownloads = st.successfulDownloads) : SetStep st st' u := by
  refine ⟨?_, ?_, ?_, ?_, ?_⟩
  · intro x hx; rw [hf] at hx; exact Or.inl hx
  · intro x hx; rw [hs] at hx; exact Or.inl hx
  · intro x hx; rw [hf]; exact hx
  · intro x hx; rw [hs]; exact hx
  · rintro ⟨hnf, _⟩ ⟨h1, _⟩
    rw [hf] at h1
    exact hnf h1

theorem setStep_addFailed {st st' : CrawlState} {u : Str}
    (hf : st'.failedDownloads = setAdd st.failedDownloads u)
    (hs : st'.successfulDownloads = st.successfulDownloads) : SetStep st st' u := by
  refine ⟨?_, ?_, ?_, ?_, ?_⟩
  · intro x hx; rw [hf] at hx; exact mem_setAdd.mp hx
  · intro x hx; rw [hs] at hx; exact Or.inl hx
  · intro x hx; rw [hf]; exact mem_setAdd.mpr (Or.inl hx)
  · intro x hx; rw [hs]; exact hx
  · rintro ⟨_, hns⟩ ⟨_, h2⟩
    rw [hs] at h2
    exact hns h2

theorem setStep_addSucc {st st' : CrawlState} {u : Str}
    (hf : st'.failedDownloads = st.failedDownloads)
    (hs : st'.successfulDownloads = setAdd st.successfulDownloads u) : SetStep st st' u := by
  refine ⟨?_, ?_, ?_, ?_, ?_⟩
  · intro x hx; rw [hf] at hx; exact Or.inl hx
  · intro x hx; rw [hs] at hx; exact mem_setAdd.mp hx
  · intro x hx; rw [hf]; exact hx
  · intro x hx; rw [hs]; exact mem_setAdd.mpr (Or.inl hx)
  · rintro ⟨hnf, _⟩ ⟨h1, _⟩
    rw [hf] at h1
    exact hnf h1

/-- The tail of a fresh `downloadAsset` respects `SetStep`. -/
theorem downloadAssetFinish_SetStep (fuel : Nat) (o : Oracle) (st1 : CrawlState)
    (u ty ext : Str) (r : Option Str) (st' : CrawlState)
    (h : downloadAssetFinish fuel o st1 u ty ext = some (r, st')) :
    SetStep st1 st' u := by
  unfold downloadAssetFinish at h
  split at h
  · rw [Option.some_inj, Prod.mk.injEq] at h
    exact h.2 ▸ setStep_addFailed rfl rfl
  · exact Option.noConfusion h
  · simp only at h
    split at h
    · rw [Option.some_inj, Prod.mk.injEq] at h
      exact h.2 ▸ setStep_addFailed rfl rfl
    · rw [Option.some_inj, Prod.mk.injEq] at h
      exact h.2 ▸ setStep_addSucc rfl rfl

/-- Every `downloadAsset` call only adds to the failed/succeeded sets, adds
only its own URL, and adds it to at most one of the two. -/
theorem downloadAsset_SetStep (cfg : Config) (fuel : Nat) (o : Oracle)
    (st : CrawlState) (u ty : Str) (r : Option Str) (st' : CrawlState)
    (h : downloadAsset cfg fuel o st u ty = some (r, st')) : SetStep st st' u := by
  unfold downloadAsset at h
  split at h
  · rw [Option.some_inj, Prod.mk.injEq] at h
    exact h.2 ▸ setStep_unchanged rfl rfl
  · try simp only at h
    split at h
    · rw [Option.some_inj, Prod.mk.injEq] at h
      exact h.2 ▸ setStep_addFailed rfl rfl
    · split at h
      · rw [Option.some_inj, Prod.mk.injEq] at h
        exact h.2 ▸ setStep_unchanged rfl rfl
      · split at h
        · rw [Option.some_inj, Prod.mk.injEq] at h
          exact h.2 ▸ setStep_addFailed rfl rfl
        · split at h
          · split at h
            · rw [Option.some_inj, Prod.mk.injEq] at h
              exact h.2 ▸ setStep_addFailed rfl rfl
            · split at h
              · rw [Option.some_inj, Prod.mk.injEq] at h
                exact h.2 ▸ setStep_addFailed rfl rfl
              · try simp only at h
                split at h
                · rw [Option.some_inj, Prod.mk.injEq] at h
                  exact h.2 ▸ setStep_addFailed rfl rfl
                · rw [Option.some_inj, Prod.mk.injEq] at h
                  exact h.2 ▸ setStep_addSucc rfl rfl
            · have hh := downloadAssetFinish_SetStep _ _ _ _ _ _ _ _ h
              exact hh
          · have hh := downloadAssetFinish_SetStep _ _ _ _ _ _ _ _ h
            exact hh

/-- As `downloadAsset_SetStep`, for `downloadFontAsset`. -/
theorem downloadFontAsset_SetStep (cfg : Config) (fuel : Nat) (o : Oracle)
    (st : CrawlState) (u : Str) (r : Option Str) (st' : CrawlState)
    (h : downloadFontAsset cfg fuel o st u = some (r, st')) : SetStep st st' u := by
  unfold downloadFontAsset at h
  split at h
  · rw [Option.some_inj, Prod.mk.injEq] at h
    exact h.2 ▸ setStep_unchanged rfl rfl
  · try simp only at h
    split at h
    · rw [Option.some_inj, Prod.mk.injEq] at h
      exact h.2 ▸ setStep_addFailed rfl rfl
    · split at h
      · rw [Option.some_inj, Prod.mk.injEq] at h
        exact h.2 ▸ setStep_unchanged rfl rfl
      · split at h
        · rw [Option.some_inj, Prod.mk.injEq] at h
          exact h.2 ▸ setStep_addFailed rfl rfl
        · split at h
          · rw [Option.some_inj, Prod.mk.injEq] at h
            exact h.2 ▸ setStep_addFailed rfl rfl
          · exact Option.noConfusion h
          · try simp only at h
            split at h
            · rw [Option.some_inj, Prod.mk.injEq] at h
              exact h.2 ▸ setStep_addFailed rfl rfl
            · rw [Option.some_inj, Prod.mk.injEq] at h
              exact h.2 ▸ setStep_addSucc rfl rfl

/-- `SetStep` for a trace operation. -/
theorem runOp_SetStep (cfg : Config) (fuel : Nat) (o : Oracle) (st : CrawlState)
    (op : CrawlOp) (r : Option Str) (st' : CrawlState)
    (h : runOp cfg fuel o st op = some (r, st')) : SetStep st st' op.url := by
  cases op with
  | asset u ty => exact downloadAsset_SetStep cfg fuel o st u ty r st' h
  | font u => exact downloadFontAsset_SetStep cfg fuel o st u r st' h

/-- The URLs a trace targets, in order. -/
def opsUrls (ops : List CrawlOp) : List Str := ops.map CrawlOp.url

/-- The trace invariant behind the amended C4: starting from a state whose
failed and succeeded sets are disjoint and contain none of the trace's URLs,
a duplicate-free trace of Asset Store operations keeps the sets disjoint. -/
theorem runOps_disjoint_aux (cfg : Config) (fuel : Nat) (o : Oracle) :
    ∀ (ops : List CrawlOp) (st st' : CrawlState),
      (opsUrls ops).Nodup →
      (∀ x, ¬ (x ∈ st.failedDownloads ∧ x ∈ st.successfulDownloads)) →
      (∀ u ∈ opsUrls ops, u ∉ st.failedDownloads ∧ u ∉ st.successfulDownloads) →
      runOps cfg fuel o ops st = some st' →
      ∀ x, ¬ (x ∈ st'.failedDownloads ∧ x ∈ st'.successfulDownloads) := by
  intro ops
  induction ops with
  | nil =>
    intro st st' _ hdisj _ hrun
    unfold runOps at hrun
    rw [Option.some_inj] at hrun
    exact hrun ▸ hdisj
  | cons op rest ih =>
    intro st st' hnd hdisj hfresh hrun
    unfold runOps at hrun
    cases hOp : runOp cfg fuel o st op with
    | none => rw [hOp] at hrun; exact Option.noConfusion hrun
    | some pr =>
      obtain ⟨r, st1⟩ := pr
      rw [hOp] at hrun
      simp only at hrun
      obtain ⟨hadd1, hadd2, hmono1, hmono2, honce⟩ :=
        runOp_SetStep cfg fuel o st op r st1 hOp
      have hcons : opsUrls (op :: rest) = op.url :: opsUrls rest := rfl
      rw [hcons, List.nodup_cons] at hnd
      obtain ⟨hnotin, hnd'⟩ := hnd
      have hfreshHead : op.url ∉ st.failedDownloads ∧ op.url ∉ st.successfulDownloads :=
        hfresh op.url (hcons ▸ List.mem_cons_self _ _)
      have hdisj1 : ∀ x, ¬ (x ∈ st1.failedDownloads ∧ x ∈ st1.successfulDownloads) := by
        intro x ⟨hx1, hx2⟩
        rcases hadd1 x hx1 with hx1' | rfl
        · rcases hadd2 x hx2 with hx2' | rfl
          · exact hdisj x ⟨hx1', hx2'⟩
          · exact honce hfreshHead ⟨hx1, hx2⟩
        · exact honce hfreshHead ⟨hx1, hx2⟩
      have hfresh1 : ∀ u ∈ opsUrls rest,
          u ∉ st1.failedDownloads ∧ u ∉ st1.successfulDownloads := by
        intro u hu
        have hne : u ≠ op.url := fun hEq => hnotin (hEq ▸ hu)
        obtain ⟨hof, hos⟩ := hfresh u (hcons ▸ List.mem_cons_of_mem _ hu)
        constructor
        · intro hu1
          rcases hadd1 u hu1 with hu' | rfl
          · exact hof hu'
          · exact hne rfl
        · intro hu1
          rcases hadd2 u hu1 with hu' | rfl
          · exact hos hu'
          · exact hne rfl
      exact ih st1 st' hnd' hdisj1 hfresh1 hrun

/-- C4 corrected/amended: within the main crawl the Asset Store operations
only ever *add* URLs to the failed and succeeded sets and each operation
touches only its own URL, adding it to at most one of the two sets; hence
over any trace in which no URL is attempted twice the two sets stay
disjoint at every point.  (The unamended disjointness fails — see the
counterexample — because a URL that fails and is re-attempted successfully
by the main crawl itself enters succeeded while nothing removes it from
failed; no Retry Coordinator is needed for that transition.) -/
theorem failed_succeeded_main_crawl (cfg : Config) (fuel : Nat) (o : Oracle) :
    (∀ st op r st', runOp cfg fuel o st op = some (r, st') → SetStep st st' op.url) ∧
    (∀ ops st', (opsUrls ops).Nodup →
      runOps cfg fuel o ops initState = some st' →
      ∀ x, ¬ (x ∈ st'.failedDownloads ∧ x ∈ st'.successfulDownloads)) := by
  constructor
  · intro st op r st' h
    exact runOp_SetStep cfg fuel o st op r st' h
  · intro ops st' hnd hrun
    refine runOps_disjoint_aux cfg fuel o ops initState st' hnd ?_ ?_ hrun
    · intro x ⟨hx, _⟩
      simp [initState] at hx
    · intro u _
      constructor <;> simp [initState]

/-- Oracle for the amended C4 witness. -/
def c4wOracle : Oracle :=
  { fetch := fun _ _ => .ok { contentType := str "image/png", contentLength := none },
    write := fun _ _ => .ok () }

/-- Concrete single-operation trace for the amended C4 witness. -/
def c4wOps : List CrawlOp := [.asset (str "https://x.test/ok.png") (str "images")]

/-- The concrete final state of the witness trace. -/
def c4wFinal : CrawlState :=
  (runOps defaultConfig 5 c4wOracle c4wOps initState).getD initState

/-- Witness for the amended C4 at a concrete duplicate-free trace. -/
theorem failed_succeeded_main_crawl_witness :
    ¬ ((str "https://x.test/ok.png") ∈ c4wFinal.failedDownloads ∧
       (str "https://x.test/ok.png") ∈ c4wFinal.successfulDownloads) :=
  (failed_succeeded_main_crawl defaultConfig 5 c4wOracle).2 c4wOps c4wFinal
    (by decide) rfl (str "https://x.test/ok.png")

/-! ## Claim C7 -/

/-- One loop iteration of `retryRequest` when the attempt succeeds. -/
theorem retryAux_step_ok (f : Nat → Except ε α) (retries a n : Nat) (x : α)
    (hf : f a = .ok x) :
    retryAux f retries a (n + 1) = ⟨some (.ok x), 1, []⟩ := by
  unfold retryAux
  rw [hf]

/-- One loop iteration when the attempt fails at `attempt === retries`:
the error is rethrown. -/
theorem retryAux_step_err_last (f : Nat → Except ε α) (retries a n : Nat) (e : ε)
    (hf : f a = .error e) (ha : a = retries) :
    retryAux f retries a (n + 1) = ⟨some (.error e), 1, []⟩ := by
  unfold retryAux
  rw [hf]
  simp [ha]

/-- One loop iteration when the attempt fails before the last: a backoff
delay of `1000 * attempt` ms is awaited and the loop continues. -/
theorem retryAux_step_err (f : Nat → Except ε α) (retries a n : Nat) (e : ε)
    (hf : f a = .error e) (ha : a ≠ retries) :
    retryAux f retries a (n + 1) =
      ⟨(retryAux f retries (a + 1) n).res, (retryAux f retries (a + 1) n).calls + 1,
        1000 * a :: (retryAux f retries (a + 1) n).delays⟩ := by
  conv_lhs => unfold retryAux
  rw [hf]
  simp [ha]

/-- The loop never invokes the transport more often than it has iterations
left. -/
theorem retryAux_calls_le (f : Nat → Except ε α) (retries : Nat) :
    ∀ fuel attempt, (retryAux f retries attempt fuel).calls ≤ fuel := by
  intro fuel
  induction fuel with
  | zero => intro a; exact Nat.le_refl 0
  | succ n ih =>
    intro a
    cases hf : f a with
    | ok x => rw [retryAux_step_ok f retries a n x hf]; simp
    | error e =>
      by_cases hend : a = retries
      · rw [retryAux_step_err_last f retries a n e hf hend]; simp
      · rw [retryAux_step_err f retries a n e hf hend]
        exact Nat.succ_le_succ (ih (a + 1))

/-- First-success behaviour: with attempts `attempt … k-1` failing and
attempt `k` succeeding, the loop returns attempt `k`'s response after
`k + 1 - attempt` transport calls and backoff delays
`1000·attempt, …, 1000·(k-1)`. -/
theorem retryAux_first_ok (f : Nat → Except ε α) (retries k : Nat) (x : α)
    (hk : f k = .ok x) :
    ∀ fuel attempt, attempt + fuel = retries + 1 → attempt ≤ k → k ≤ retries →
      (∀ j, attempt ≤ j → j < k → ∃ e, f j = .error e) →
      retryAux f retries attempt fuel =
        ⟨some (.ok x), k + 1 - attempt,
          (List.range' attempt (k - attempt)).map (1000 * ·)⟩ := by
  intro fuel
  induction fuel with
  | zero =>
    intro a ha hak hkr _
    omega
  | succ n ih =>
    intro a ha hak hkr hbefore
    by_cases hake : a = k
    · subst hake
      rw [retryAux_step_ok f retries a n x hk]
      have h1 : a + 1 - a = 1 := by omega
      rw [Nat.sub_self, h1]
      simp
    · obtain ⟨e, he⟩ := hbefore a (Nat.le_refl a) (Nat.lt_of_le_of_ne hak hake)
      have hane : a ≠ retries := by omega
      rw [retryAux_step_err f retries a n e he hane]
      rw [ih (a + 1) (by omega) (by omega) hkr (fun j hj hjk => hbefore j (by omega) hjk)]
      have hcalls : k + 1 - (a + 1) + 1 = k + 1 - a := by omega
      have hlen : k - a = (k - (a + 1)) + 1 := by omega
      rw [hcalls, hlen, List.range'_succ, List.map_cons]

/-- All-failure behaviour: when every attempt fails, the loop rethrows the
last attempt's error after `fuel` calls with the full backoff sequence. -/
theorem retryAux_all_err (f : Nat → Except ε α) (retries : Nat) :
    ∀ fuel attempt, attempt + fuel = retries + 1 → 1 ≤ fuel →
      (∀ j, attempt ≤ j → j ≤ retries → ∃ e, f j = .error e) →
      ∃ e, retryAux f retries attempt fuel =
        ⟨some (.error e), fuel, (List.range' attempt (fuel - 1)).map (1000 * ·)⟩ ∧
        f retries = .error e := by
  intro fuel
  induction fuel with
  | zero => intro a _ h1 _; omega
  | succ n ih =>
    intro a ha _ hall
    obtain ⟨e, he⟩ := hall a (Nat.le_refl a) (by omega)
    by_cases hend : a = retries
    · refine ⟨e, ?_, hend ▸ he⟩
      rw [retryAux_step_err_last f retries a n e he hend]
      have hn : n = 0 := by omega
      subst hn
      simp
    · obtain ⟨e', he', hr⟩ := ih (a + 1) (by omega) (by omega)
        (fun j hj hjr => hall j (by omega) hjr)
      refine ⟨e', ?_, hr⟩
      rw [retryAux_step_err f retries a n e he hend, he']
      have hlen : n + 1 - 1 = (n - 1) + 1 := by omega
      rw [hlen, List.range'_succ, List.map_cons]

/-- A rethrown error means every attempt failed. -/
theorem retryAux_err_all (f : Nat → Except ε α) (retries : Nat) :
    ∀ fuel attempt e c d, retryAux f retries attempt fuel = ⟨some (.error e), c, d⟩ →
      ∀ j, attempt ≤ j → j ≤ retries → ∃ e', f j = .error e' := by
  intro fuel
  induction fuel with
  | zero =>
    intro a e c d h
    exact absurd (congrArg RetryOut.res h) (by simp [retryAux])
  | succ n ih =>
    intro a e c d h j hj hjr
    cases hf : f a with
    | ok x =>
      rw [retryAux_step_ok f retries a n x hf] at h
      exact absurd (congrArg RetryOut.res h) (by simp)
    | error e0 =>
      by_cases hend : a = retries
      · have hja : j = a := by omega
        exact ⟨e0, hja ▸ hf⟩
      · rcases Nat.lt_or_ge j (a + 1) with hlt | hge
        · have hja : j = a := by omega
          exact ⟨e0, hja ▸ hf⟩
        · rw [retryAux_step_err f retries a n e0 hf hend] at h
          simp only [RetryOut.mk.injEq] at h
          obtain ⟨hres, hc, hd⟩ := h
          exact ih (a + 1) e _ _ (by rw [← hres]) j hge hjr

/-- C7: `retryRequest` invokes the transport at most `maxRetries` times;
it returns the first successful response (after `k` calls and linear
backoff delays `1000·1, …, 1000·(k-1)` ms when attempt `k` is the first to
succeed); and it rethrows — so the URL is counted as failed — exactly when
all `maxRetries` attempts fail. -/
theorem retryRequest_spec (f : Nat → Except ε α) (retries : Nat) (hr : 1 ≤ retries) :
    (retryRequest f retries).calls ≤ retries ∧
    (∀ k x, 1 ≤ k → k ≤ retries → f k = .ok x →
      (∀ j, 1 ≤ j → j < k → ∃ e, f j = .error e) →
      retryRequest f retries =
        ⟨some (.ok x), k, (List.range' 1 (k - 1)).map (1000 * ·)⟩) ∧
    ((∃ e, (retryRequest f retries).res = some (.error e)) ↔
      (∀ j, 1 ≤ j → j ≤ retries → ∃ e, f j = .error e)) := by
  refine ⟨retryAux_calls_le f retries retries 1, ?_, ?_⟩
  · intro k x hk1 hkr hok hbef
    have hh := retryAux_first_ok f retries k x hok retries 1 (by omega) hk1 hkr
      (fun j hj hjk => hbef j hj hjk)
    unfold retryRequest
    rw [hh]
    have h1 : k + 1 - 1 = k := by omega
    rw [h1]
  · constructor
    · rintro ⟨e, he⟩
      exact retryAux_err_all f retries retries 1 e (retryRequest f retries).calls
        (retryRequest f retries).delays (by rw [← he]; rfl)
    · intro hall
      obtain ⟨e, he, _⟩ := retryAux_all_err f retries retries 1 (by omega) hr hall
      refine ⟨e, ?_⟩
      unfold retryRequest
      rw [he]

/-- Transport oracle for the C7 witness: attempt 1 fails, attempt 2
succeeds. -/
def c7f : Nat → Except Str Nat :=
  fun k => if k = 2 then .ok 7 else .error (str "boom")

/-- Witness for C7 at `maxRetries = 3` (the configured value): two calls,
one 1000 ms delay, the first success returned. -/
theorem retryRequest_spec_witness :
    (retryRequest c7f 3).calls ≤ 3 ∧
    retryRequest c7f 3 = ⟨some (.ok 7), 2, [1000]⟩ := by
  have h := retryRequest_spec c7f 3 (by omega)
  have hbef : ∀ j, 1 ≤ j → j < 2 → ∃ e, c7f j = .error e := by
    intro j hj1 hj2
    have hj : j = 1 := by omega
    subst hj
    exact ⟨str "boom", rfl⟩
  exact ⟨h.1, h.2.1 2 7 (by omega) (by omega) rfl hbef⟩

/-! ## Claim C8 -/

/-- C8 counterexample: on a URL string `new URL` rejects, both
`generateFilename` and `generateFontFilename` throw (the `TypeError` of
their unguarded `new URL(url)` at the first line) — there is no
timestamp-derived fallback in either. -/
theorem filenameResolver_throws_cex :
    generateFilename 1 [] (str "notaurl") (str "images") (some (str "png")) =
      .thrown ∧
    generateFontFilename 0 1 [] (str "notaurl") (str "woff") = .thrown :=
  ⟨rfl, rfl⟩

/-- C8 amended: `generateFilename` and `generateFontFilename` never throw
*when the URL string parses* and the URL has no prior `assetMap`
assignment (the situation at every internal call site) — they return a
name; on an unparseable URL string they throw.  Only `bypass403.js`'s
`getFilenameFromUrl` has the claimed catch-all: it is total, and on any
parsing anomaly returns the timestamp-derived `download-<timestamp>.bin`. -/
theorem filenameResolver_no_throw_amended (fuel now : Nat)
    (am : List (Str × Str)) (url ty fext : Str) (ext : Option Str)
    (uo : UrlObj) (hp : parseUrl url = some uo) (hm : mapGet am url = none) :
    (∃ s, generateFilename fuel am url ty ext = .name s) ∧
    (∃ s, generateFontFilename now fuel am url fext = .name s) ∧
    (∀ u ts, parseUrl u = none →
      getFilenameFromUrl ts u = str "download-" ++ ts ++ str ".bin") := by
  refine ⟨generateFilename_fresh fuel am url ty ext uo hp hm,
          generateFontFilename_fresh now fuel am url fext uo hp hm, ?_⟩
  intro u ts hnone
  unfold getFilenameFromUrl
  rw [hnone]

/-- Witness for the amended C8 at concrete inputs. -/
theorem filenameResolver_no_throw_amended_witness :
    generateFilename 1 [] (str "https://x.test/a.png") (str "images")
      (some (str "png")) = .name (str "a.png") ∧
    generateFontFilename 0 1 [] (str "https://x.test/a.png") (str "woff") =
      .name (str "a.png.woff") ∧
    getFilenameFromUrl (str "TS") (str "notaurl") =
      str "download-" ++ str "TS" ++ str ".bin" :=
  ⟨rfl, rfl,
    (filenameResolver_no_throw_amended 1 0 [] (str "https://x.test/a.png")
      (str "images") (str "woff") (some (str "png"))
      ⟨str "https", str "x.test", str "/a.png"⟩ rfl rfl).2.2
      (str "notaurl") (str "TS") rfl⟩

/-! ## Claim C9: lemmas relating the regex strip to the spec's strip -/

theorem hasPfx_single (c : Char) (l : Str) (h : hasPfx [c] l = true) :
    ∃ t, l = c :: t := by
  cases l with
  | nil => simp [hasPfx] at h
  | cons x xs =>
    refine ⟨xs, ?_⟩
    simp only [hasPfx, Bool.and_eq_true, decide_eq_true_eq] at h
    rw [h.1]

/-- Unfolding equation of `containsSub` on a `cons`. -/
theorem containsSub_cons (n : Str) (c : Char) (cs : Str) :
    containsSub n (c :: cs) = (hasPfx n (c :: cs) || containsSub n cs) := rfl

theorem containsSub_of_tail {n : Str} {c : Char} {cs : Str}
    (h : containsSub n (c :: cs) = false) : containsSub n cs = false := by
  rw [containsSub_cons] at h
  exact (Bool.or_eq_false_iff.mp h).2

theorem containsSub_append_right (n a b : Str) (h : containsSub n b = true) :
    containsSub n (a ++ b) = true := by
  induction a with
  | nil => simpa using h
  | cons c cs ih =>
    rw [List.cons_append, containsSub_cons, ih, Bool.or_true]

/-- A list whose reverse starts with `'/'` ends with `'/'`. -/
theorem eq_append_slash_of_reverse (t xs : Str) (hr : t.reverse = '/' :: xs) :
    t = xs.reverse ++ ['/'] := by
  have h2 := congrArg List.reverse hr
  simpa using h2

/-- Without a `"//"` substring, a list starting with `'/'` has a non-`'/'`
(or empty) tail. -/
theorem tail_head_ne_slash {t : Str}
    (h : containsSub (str "//") ('/' :: t) = false) :
    t.dropWhile (· = '/') = t := by
  cases t with
  | nil => rfl
  | cons y ys =>
    by_cases hy : y = '/'
    · exfalso
      subst hy
      have h1 : hasPfx (str "//") ('/' :: '/' :: ys) = true := rfl
      rw [containsSub_cons, h1, Bool.true_or] at h
      exact Bool.noConfusion h
    · rw [List.dropWhile_cons_of_neg (by simpa using hy)]

/-- Without `"//"`, stripping one trailing slash is stripping all. -/
theorem stripTrailOne_eq_dropTrail (t : Str)
    (h : containsSub (str "//") t = false) :
    stripTrailOne t = dropTrailSlashes t := by
  unfold stripTrailOne dropTrailSlashes
  by_cases hs : hasSfx (str "/") t = true
  · rw [if_pos hs]
    unfold hasSfx at hs
    obtain ⟨xs, hr⟩ := hasPfx_single '/' t.reverse hs
    cases xs with
    | nil =>
      rw [hr]
      simp
    | cons y ys =>
      by_cases hy : y = '/'
      · exfalso
        subst hy
        have ht : t = ys.reverse ++ ['/'] ++ ['/'] := by
          have h1 := eq_append_slash_of_reverse t ('/' :: ys) hr
          simpa using h1
        have hsub : containsSub (str "//") t = true := by
          rw [ht, List.append_assoc]
          exact containsSub_append_right _ _ _ rfl
        rw [hsub] at h
        exact Bool.noConfusion h
      · rw [hr]
        rw [List.drop_one, List.tail_cons,
          List.dropWhile_cons_of_pos (by simp),
          List.dropWhile_cons_of_neg (by simpa using hy)]
  · rw [if_neg hs]
    unfold hasSfx at hs
    cases hr : t.reverse with
    | nil =>
      have ht : t = [] := by simpa using congrArg List.reverse hr
      rw [ht]
      simp
    | cons x xs =>
      by_cases hx : x = '/'
      · exfalso
        subst hx
        exact hs (by rw [hr]; rfl)
      · rw [List.dropWhile_cons_of_neg (by simpa using hx)]
        rw [← hr, List.reverse_reverse]

/-- A pathname selected by `parseAfterScheme` always starts with `'/'`. -/
theorem pathname_if_shape (after : Str) :
    ∃ t, (if hasPfx (str "/") after
          then after.takeWhile fun c => c ≠ '?' && c ≠ '#'
          else (['/'] : Str)) = '/' :: t := by
  by_cases hpf : hasPfx (str "/") after = true
  · rw [if_pos hpf]
    obtain ⟨t, ht⟩ := hasPfx_single '/' after hpf
    rw [ht, List.takeWhile_cons]
    simp
  · rw [if_neg hpf]
    exact ⟨[], rfl⟩

theorem parseAfterScheme_shape (scheme rest : Str) (uo : UrlObj)
    (h : parseAfterScheme scheme rest = some uo) :
    ∃ t, uo.pathname = '/' :: t := by
  unfold parseAfterScheme at h
  simp only at h
  split at h
  · exact Option.noConfusion h
  · rw [Option.some_inj] at h
    subst h
    exact pathname_if_shape _

/-- Every pathname the URL model produces starts with `'/'`. -/
theorem parseUrl_pathname_shape (u : Str) (uo : UrlObj)
    (h : parseUrl u = some uo) : ∃ t, uo.pathname = '/' :: t := by
  unfold parseUrl at h
  split at h
  · exact parseAfterScheme_shape _ _ _ h
  · split at h
    · exact parseAfterScheme_shape _ _ _ h
    · exact Option.noConfusion h

/-- `dropTrailSlashes` never returns the single-slash string. -/
theorem dropTrailSlashes_ne_slash (t : Str) : dropTrailSlashes t ≠ str "/" := by
  unfold dropTrailSlashes
  intro hcontra
  have h3 := congrArg List.reverse hcontra
  rw [List.reverse_reverse, show (str "/").reverse = ['/'] from rfl] at h3
  have aux : ∀ (l : Str), l.dropWhile (· = '/') ≠ ['/'] := by
    intro l
    induction l with
    | nil => simp
    | cons x xs ih =>
      by_cases hx : x = '/'
      · rw [List.dropWhile_cons_of_pos (by simpa using hx)]
        exact ih
      · rw [List.dropWhile_cons_of_neg (by simpa using hx)]
        intro hh
        injection hh with hh1 _
        exact hx hh1
  exact aux t.reverse h3

/-- C9: `getPageOutputPath` maps a page URL exactly as the spec's rule
(`pageOutputPathSpec`) says: the URL path with its leading and trailing
slashes stripped becomes a directory; a remaining path with a file
extension is used verbatim; otherwise `index.html` is appended; an empty
path maps to the mirror root's `index.html` (the hypothesis excludes
doubled slashes, where "strip the slashes" is ambiguous; `filename` is
ignored, as in the source). -/
theorem getPageOutputPath_spec (outputDir url fname : Str) (uo : UrlObj)
    (hp : parseUrl url = some uo)
    (hnd : containsSub (str "//") uo.pathname = false) :
    getPageOutputPath outputDir url fname =
      some (pageOutputPathSpec outputDir uo.pathname) := by
  obtain ⟨t, hsh⟩ := parseUrl_pathname_shape url uo hp
  have hlead : stripLeadOne uo.pathname = t := by rw [hsh]; rfl
  have hnd_t : containsSub (str "//") t = false := by
    rw [hsh] at hnd
    exact containsSub_of_tail hnd
  have hdw : t.dropWhile (· = '/') = t := tail_head_ne_slash (hsh ▸ hnd)
  have hall : stripAllSlashes uo.pathname = dropTrailSlashes t := by
    unfold stripAllSlashes
    rw [hsh, List.dropWhile_cons_of_pos (by simp), hdw]
  have hcode : stripTrailOne (stripLeadOne uo.pathname) = dropTrailSlashes t := by
    rw [hlead]
    exact stripTrailOne_eq_dropTrail t hnd_t
  unfold getPageOutputPath pageOutputPathSpec
  rw [hp]
  simp only [hcode, hall]
  by_cases h1 : dropTrailSlashes t = []
  · simp [h1]
  · have h2 : dropTrailSlashes t ≠ str "/" := dropTrailSlashes_ne_slash t
    by_cases h3 : dropTrailSlashes t = str "index.html"
    · rw [h3]
      rw [if_pos (by right; right; rfl), if_neg (by decide), if_pos (by decide)]
    · simp only [h1, h2, h3]
      by_cases h4 : jsExtname (dropTrailSlashes t) = [] <;>
        simp [h1, h2, h3, h4]

/-- Witness for C9 at a concrete trailing-slash page URL. -/
theorem getPageOutputPath_spec_witness :
    getPageOutputPath (str "out") (str "https://x.test/docs/page/")
        (str "index.html") =
      some (pageOutputPathSpec (str "out") (str "/docs/page/")) :=
  getPageOutputPath_spec (str "out") (str "https://x.test/docs/page/")
    (str "index.html") ⟨str "https", str "x.test", str "/docs/page/"⟩ rfl rfl

/-! ## Claim C10 -/

/-- Reference shapes the `url(...)` regex captures whole: nonempty, no
quotes, no closing parenthesis. -/
def cleanRefB (ref : Str) : Bool :=
  !ref.isEmpty && ref.all fun c => !isQuoteChar c && c ≠ ')'

theorem hasPfx_append_self (p t : Str) : hasPfx p (p ++ t) = true := by
  induction p with
  | nil => rfl
  | cons c cs ih => simpa [hasPfx] using ih

theorem takeWhile_all_append (p : Char → Bool) (a : Str) (x : Char) (b : Str)
    (ha : ∀ c ∈ a, p c = true) (hx : p x = false) :
    (a ++ x :: b).takeWhile p = a := by
  induction a with
  | nil => simp [List.takeWhile_cons, hx]
  | cons c cs ih =>
    rw [List.cons_append, List.takeWhile_cons, ha c (List.mem_cons_self c cs)]
    rw [ih fun d hd => ha d (List.mem_cons_of_mem c hd)]
    simp

theorem cssReplaceGo_nil (cb : Str → Str → Str) : ∀ n, cssReplaceGo cb n [] = [] := by
  intro n
  cases n with
  | zero => rfl
  | succ m => rfl

/-- The scanner on the one-reference template: it captures exactly the
clean reference, consuming the whole text. -/
theorem matchUrlTok_template (ref : Str) (h : cleanRefB ref = true) :
    matchUrlTok (str "url(" ++ ref ++ str ")") =
      some (str "url(" ++ ref ++ str ")", ref, []) := by
  unfold cleanRefB at h
  rw [Bool.and_eq_true] at h
  obtain ⟨hne, hall⟩ := h
  rw [List.all_eq_true] at hall
  have hne' : ref ≠ [] := by
    cases ref with
    | nil => simp at hne
    | cons c cs => exact List.cons_ne_nil c cs
  cases ref with
  | nil => exact absurd rfl hne'
  | cons r0 rs =>
    have hq0 : isQuoteChar r0 = false := by
      have := hall r0 (List.mem_cons_self r0 rs)
      rw [Bool.and_eq_true] at this
      simpa using this.1
    have h4 : (str "url(" ++ (r0 :: rs) ++ str ")").drop 4 = (r0 :: rs) ++ str ")" := by
      rw [List.append_assoc, show (4 : Nat) = (str "url(").length from rfl,
        List.drop_left]
    have htw : ((r0 :: rs) ++ str ")").takeWhile (fun c => !isQuoteChar c && c ≠ ')') =
        r0 :: rs := by
      rw [show (str ")") = [')'] from rfl]
      exact takeWhile_all_append _ _ _ [] hall (by rfl)
    have hd : ((r0 :: rs) ++ str ")").drop (r0 :: rs).length = str ")" :=
      List.drop_left _ _
    unfold matchUrlTok
    rw [if_pos (by rw [List.append_assoc]; exact hasPfx_append_self _ _)]
    simp only [h4, show ((r0 :: rs) ++ str ")").head? = some r0 from rfl, hq0,
      Bool.false_eq_true, if_false, htw, hd,
      show (str ")").head? = some ')' from rfl, if_pos rfl]
    simp
    exact ⟨rfl, rfl⟩

/-- Applying `rewriteCssUrls` to the one-reference template is exactly one
callback application. -/
theorem rewriteCssUrls_template (am : List (Str × Str)) (base ref : Str)
    (h : cleanRefB ref = true) :
    rewriteCssUrls am base (str "url(" ++ ref ++ str ")") =
      cssUrlCb am base (str "url(" ++ ref ++ str ")") ref := by
  have hm := matchUrlTok_template ref h
  unfold rewriteCssUrls
  have hshape : str "url(" ++ ref ++ str ")" =
      'u' :: (str "rl(" ++ ref ++ str ")") := rfl
  rw [hshape] at hm ⊢
  rw [show ('u' :: (str "rl(" ++ ref ++ str ")")).length =
    (str "rl(" ++ ref ++ str ")").length + 1 from rfl]
  rw [show cssReplaceGo (cssUrlCb am base) ((str "rl(" ++ ref ++ str ")").length + 1)
      ('u' :: (str "rl(" ++ ref ++ str ")")) =
      (match matchUrlTok ('u' :: (str "rl(" ++ ref ++ str ")")) with
       | some (m, r, remaining) =>
         cssUrlCb am base m r ++
           cssReplaceGo (cssUrlCb am base) (str "rl(" ++ ref ++ str ")").length remaining
       | none =>
         'u' :: cssReplaceGo (cssUrlCb am base) (str "rl(" ++ ref ++ str ")").length
           (str "rl(" ++ ref ++ str ")")) from rfl]
  rw [hm]
  show cssUrlCb am base ('u' :: (str "rl(" ++ ref ++ str ")")) ref ++
      cssReplaceGo (cssUrlCb am base) (str "rl(" ++ ref ++ str ")").length [] = _
  rw [cssReplaceGo_nil, List.append_nil]

/-- C10 amended: the generic pass (`rewriteCssUrls`) is a pure function of
the CSS text, the base URL and the current `assetMap` — it can neither
fetch nor mutate state — and it leaves `data:`/`#`/`assets/` references and
references without an `assetMap` entry character-for-character unchanged,
substituting exactly the mapped ones.  In the `@font-face` pass only
`data:` and `assets/` references are exempt (a `'#'` reference is *not*:
see the counterexample). -/
theorem cssRewrite_amended :
    (∀ am base ref, cleanRefB ref = true →
      (hasPfx (str "data:") ref || hasPfx (str "#") ref ||
        hasPfx (str "assets/") ref) = true →
      rewriteCssUrls am base (str "url(" ++ ref ++ str ")") =
        str "url(" ++ ref ++ str ")") ∧
    (∀ am base ref u, cleanRefB ref = true →
      (hasPfx (str "data:") ref || hasPfx (str "#") ref ||
        hasPfx (str "assets/") ref) = false →
      resolveUrl ref base = some u → mapGet am u = none →
      rewriteCssUrls am base (str "url(" ++ ref ++ str ")") =
        str "url(" ++ ref ++ str ")") ∧
    (∀ am base ref u lp, cleanRefB ref = true →
      (hasPfx (str "data:") ref || hasPfx (str "#") ref ||
        hasPfx (str "assets/") ref) = false →
      resolveUrl ref base = some u → mapGet am u = some lp →
      rewriteCssUrls am base (str "url(" ++ ref ++ str ")") =
        (if isFontFile ref then str "url(assets/fonts/" ++ lp ++ str ")"
         else str "url(assets/" ++ lp ++ str ")")) ∧
    (∀ cfg fuel o base st acc ref,
      (hasPfx (str "data:") ref || hasPfx (str "assets/") ref) = true →
      fontFaceUrlStep cfg fuel o base (st, acc) ref = some (st, acc)) := by
  refine ⟨?_, ?_, ?_, ?_⟩
  · intro am base ref hclean hex
    rw [rewriteCssUrls_template am base ref hclean]
    unfold cssUrlCb
    rw [if_pos hex]
  · intro am base ref u hclean hex hres hget
    rw [rewriteCssUrls_template am base ref hclean]
    unfold cssUrlCb
    rw [if_neg (by rw [hex]; exact Bool.false_ne_true), hres]
    simp only [hget]
  · intro am base ref u lp hclean hex hres hget
    rw [rewriteCssUrls_template am base ref hclean]
    unfold cssUrlCb
    rw [if_neg (by rw [hex]; exact Bool.false_ne_true), hres]
    simp only [hget]
  · intro cfg fuel o base st acc ref hex
    unfold fontFaceUrlStep
    rw [if_pos hex]

/-- Witness for the amended C10 at concrete inputs: a `data:` reference and
an unmapped reference pass through unchanged; a mapped reference is
substituted; the font-face step skips an `assets/` reference. -/
theorem cssRewrite_amended_witness :
    rewriteCssUrls [] (str "https://x.test/") (str "url(" ++ str "data:x" ++ str ")") =
      str "url(" ++ str "data:x" ++ str ")" ∧
    rewriteCssUrls [] (str "https://x.test/")
        (str "url(" ++ str "https://x.test/bg.png" ++ str ")") =
      str "url(" ++ str "https://x.test/bg.png" ++ str ")" ∧
    rewriteCssUrls [(str "https://x.test/bg.png", str "bg.png")] (str "https://x.test/")
        (str "url(" ++ str "https://x.test/bg.png" ++ str ")") =
      (if isFontFile (str "https://x.test/bg.png") then
        str "url(assets/fonts/" ++ str "bg.png" ++ str ")"
       else str "url(assets/" ++ str "bg.png" ++ str ")") :=
  ⟨cssRewrite_amended.1 [] (str "https://x.test/") (str "data:x") (by decide) (by decide),
   cssRewrite_amended.2.1 [] (str "https://x.test/") (str "https://x.test/bg.png")
     (str "https://x.test/bg.png") (by decide) (by decide) rfl rfl,
   cssRewrite_amended.2.2.1 [(str "https://x.test/bg.png", str "bg.png")]
     (str "https://x.test/") (str "https://x.test/bg.png")
     (str "https://x.test/bg.png") (str "bg.png") (by decide) (by decide) rfl rfl⟩

/-- Oracle for the C10 counterexample: the font fetch succeeds. -/
def c10Oracle : Oracle :=
  { fetch := fun _ _ => .ok { contentType := str "font/woff2", contentLength := none },
    write := fun _ _ => .ok () }

/-- C10 counterexample: in the `@font-face` pass a reference beginning with
`#` is *not* left untouched: `processFontFaceBlock` resolves it against the
base URL, issues a font download (one fetch in the log), and — the download
succeeding — replaces the reference, so the block is not preserved
character-for-character. -/
theorem fontface_hash_not_untouched_cex :
    (processFontFaceBlock defaultConfig 5 c10Oracle initState
        (str "@font-face\x7bsrc:url(#f);\x7d") (str "https://x.test/style.css")).map
      (fun r => (r.2, r.1.fetchLog.length)) =
      some (str "@font-face\x7bsrc:url(assets/fonts/style.css.woff2);\x7d", 1) ∧
    str "@font-face\x7bsrc:url(assets/fonts/style.css.woff2);\x7d" ≠
      str "@font-face\x7bsrc:url(#f);\x7d" := by
  refine ⟨rfl, by decide⟩

end Crawler
